import Mathlib

/-!
Verification development for the websdr device-communication layer.

The TypeScript sources are shallowly embedded into Lean:
* machine numbers are `Nat`/`Int` with explicit `% 2 ^ w` where JavaScript
  coerces (ToInt32 for bitwise operators, ToInt16 for `Int16Array` stores,
  wrap-around of `BigUint64Array`),
* `Float32`/`Float64` sample values are represented by `ℚ`; every concrete
  value appearing in the theorems below (`x / 0x8000` for an `int16` x, a
  `Float32` times the integer `0x7fff`) is exactly representable, so the
  rational model agrees bit for bit with the IEEE evaluation on the inputs
  used,
* a `DataView`/`ArrayBuffer` is a byte length together with a byte accessor,
* code that throws returns `Except`,
* the cooperative (single event loop) scheduling of the session logic is
  modelled by explicit state passing; `await` points inside one session
  operation are atomic steps of a small transition system.

Sources embedded below:
  packages/core/src/transform/converters.ts
  packages/core/src/utils/circularbuffer.ts
  packages/frontend-core/src/webusb/webUsbBase.ts        (WebUsb session)
  packages/frontend-core/src/webusb/webUsbWsdr.ts        (WebUsbWsdr codec)
  packages/frontend-core/src/webusb/webUsbLimeSdr.ts     (WebUsbLimeSdr codec)
  packages/frontend-core/src/webusb/webUsbDeviceManager.ts
  packages/frontend-core/src/webusb/controlWebUsb.ts     (debounced setParameter)
  packages/frontend-core/src/webusb/webUsbManager.ts     (WebUsbWorkerManager)
-/

namespace WebSdr

/-! ## Common constants (packages/core/src/common) -/

/-- Byte size of one complex int16 sample (two 16-bit values). -/
def COMPLEX_INT16_SIZE : Nat := 4

/-- Byte size of one complex float32 sample (two 32-bit values). -/
def COMPLEX_FLOAT_SIZE : Nat := 8

/-- Element datatype tags used by the codecs (`DataType` in core/common). -/
inductive DataType where
  | ci16
  | cf32
  deriving DecidableEq, Repr

/-! ## JavaScript numeric coercions -/

/-- JavaScript truncation toward zero of a rational, as applied by
`ToIntegerOrInfinity` inside the `ToInt16` store conversion. -/
def jsTrunc (q : ℚ) : Int :=
  if 0 ≤ q then ⌊q⌋ else -⌊-q⌋

/-- JavaScript `Math.round`: round half toward positive infinity. -/
def jsRound (q : ℚ) : Int :=
  ⌊q + 1 / 2⌋

/-- `ToInt16`: wrap an integer modulo `2 ^ 16` into `[-32768, 32767]`.
This is what storing into an `Int16Array` does to an out-of-range value. -/
def toInt16 (n : Int) : Int :=
  let m := n % 65536
  if m < 32768 then m else m - 65536

/-! ## packages/core/src/transform/converters.ts -/

/-- One element of `bufferI16ToF32`: `output[i] = input[i] / 0x8000`.
An `int16` divided by `2 ^ 15` is exactly representable as `Float32`,
so the rational value is the exact result. -/
def i16ToF32Elem (x : Int) : ℚ :=
  (x : ℚ) / 0x8000

/-- One element of `bufferF32ToI16`: `output[i] = input[i] * 0x7fff`.
The double-precision product of a `Float32` and `0x7fff` (15 bits) is exact
(24 + 15 < 53 mantissa bits); the store into the `Int16Array` then applies
`ToInt16`, i.e. truncation toward zero followed by wrap modulo `2 ^ 16`. -/
def f32ToI16Elem (y : ℚ) : Int :=
  toInt16 (jsTrunc (y * 0x7fff))

/-- `bufferI16ToF32(input, outbuf?)`: converts `min(input.length, output.length)`
elements; without `outbuf` the output has `input.length` elements (initial
value 0, as a fresh `Float32Array`). -/
def bufferI16ToF32 (input : List Int) (outbuf : Option (List ℚ)) : List ℚ :=
  let output := outbuf.getD (List.replicate input.length 0)
  let len := min input.length output.length
  output.mapIdx fun i v => if i < len then i16ToF32Elem (input.getD i 0) else v

/-- `bufferF32ToI16(input, outbuf?)`: converts `min(input.length, output.length)`
elements; without `outbuf` the output has `input.length` elements. -/
def bufferF32ToI16 (input : List ℚ) (outbuf : Option (List Int)) : List Int :=
  let output := outbuf.getD (List.replicate input.length 0)
  let len := min input.length output.length
  output.mapIdx fun i v => if i < len then f32ToI16Elem (input.getD i 0) else v

/-! ## Packet size functions

`WebUsbWsdr` (variant A) and `WebUsbLimeSdr` (variant B). JavaScript `&`
converts both operands with ToInt32; since the mask `0xffe00` is positive and
below `2 ^ 31`, `x & 0xffe00` equals `(x % 2 ^ 32) &&& 0xffe00` for every
non-negative `x`. -/

namespace WebUsbWsdr

def MAX_PACKET_SIZE : Nat := 0x000fffff
def PACKET_ALIGN : Nat := 512
def PACKET_ALIGN_MASK : Nat := PACKET_ALIGN - 1
def MAX_PACKET_MASK : Nat := MAX_PACKET_SIZE - PACKET_ALIGN_MASK
def HEADER_SIZE : Nat := 16
def TRAILER_SIZE : Nat := 8
def TRAILER_EXTRA_SIZE : Nat := 8
def EXTRA_RX_DATA : Nat := 512 + 2048
def MIN_SAMPLES_IN_PKT : Nat := 128
def MAX_SAMPLES_IN_PKT : Nat := 8192

/-- `getRXSamplesCount(samples)`: identity for variant A. -/
def getRXSamplesCount (samples : Nat) : Nat := samples

/-- `getRXPacketSize(samples)`:
`((samples * COMPLEX_INT16_SIZE + PACKET_ALIGN_MASK) & MAX_PACKET_MASK) + EXTRA_RX_DATA`. -/
def getRXPacketSize (samples : Nat) : Nat :=
  (((samples * COMPLEX_INT16_SIZE + PACKET_ALIGN_MASK) % 2 ^ 32) &&& MAX_PACKET_MASK)
    + EXTRA_RX_DATA

/-- `getTXPacketSize(samples)`: `samples * COMPLEX_INT16_SIZE + HEADER_SIZE`
(the alignment mask is commented out in the source). -/
def getTXPacketSize (samples : Nat) : Nat :=
  samples * COMPLEX_INT16_SIZE + HEADER_SIZE

end WebUsbWsdr

namespace WebUsbLimeSdr

def PACKET_SIZE : Nat := 4096
def HEADER_SIZE : Nat := 16
def SAMPLES_PER_PACKET : Nat := (PACKET_SIZE - HEADER_SIZE) / COMPLEX_INT16_SIZE
def ELEMENTS_PER_PACKET : Nat := SAMPLES_PER_PACKET * 2
def SAMPLES_MULTIPLY : Nat := 4

/-- `getRXSamplesCount(samples)`: round down to whole sub-packets. -/
def getRXSamplesCount (samples : Nat) : Nat :=
  samples / SAMPLES_PER_PACKET * SAMPLES_PER_PACKET

/-- `getRXPacketSize(samples)`: `ceil(samples / SAMPLES_PER_PACKET) * PACKET_SIZE`. -/
def getRXPacketSize (samples : Nat) : Nat :=
  ((samples + SAMPLES_PER_PACKET - 1) / SAMPLES_PER_PACKET) * PACKET_SIZE

/-- `getTXPacketSize(samples)`: whole sub-packets plus a short last sub-packet
(header + remaining samples) when the count is not a multiple of 1020. -/
def getTXPacketSize (samples : Nat) : Nat :=
  let lastPktFill := samples % SAMPLES_PER_PACKET
  samples / SAMPLES_PER_PACKET * PACKET_SIZE
    + (if 0 < lastPktFill then HEADER_SIZE + lastPktFill * COMPLEX_INT16_SIZE else 0)

end WebUsbLimeSdr

/-! ## Byte views

A `DataView` over an `ArrayBuffer` is modelled as a byte length plus a byte
accessor (each byte a value below 256). The decoders receive views whose
byte offset into the underlying buffer is 0, which is how `submitRxPacket`
hands `transferIn` results to them; under that assumption `data.buffer` and
the view itself address the same bytes. -/

structure ByteView where
  len : Nat
  byte : Nat → Nat

namespace ByteView

/-- Little-endian 64-bit read at a (known in-range) byte offset. -/
def readU64 (v : ByteView) (o : Nat) : Nat :=
  v.byte o + v.byte (o + 1) * 2 ^ 8 + v.byte (o + 2) * 2 ^ 16
    + v.byte (o + 3) * 2 ^ 24 + v.byte (o + 4) * 2 ^ 32 + v.byte (o + 5) * 2 ^ 40
    + v.byte (o + 6) * 2 ^ 48 + v.byte (o + 7) * 2 ^ 56

/-- `getBigUint64(off, true)` (little endian), with the `DataView` bounds
check: a read outside the view throws a `RangeError`. -/
def getU64 (v : ByteView) (off : Int) : Except String Nat :=
  if 0 ≤ off ∧ off + 8 ≤ v.len then
    Except.ok (v.readU64 off.toNat)
  else Except.error "RangeError: Offset is outside the bounds of the DataView"

/-- Unsigned 16-bit little-endian read at a byte offset (no bounds check;
used only at in-range offsets below). -/
def getU16 (v : ByteView) (off : Nat) : Nat :=
  v.byte off + v.byte (off + 1) * 2 ^ 8

/-- Signed 16-bit little-endian read, as an `Int16Array` element. -/
def getI16 (v : ByteView) (off : Nat) : Int :=
  toInt16 (v.getU16 off)

/-- The `cnt` consecutive `int16` elements starting at byte offset `off`. -/
def i16Elems (v : ByteView) (off cnt : Nat) : List Int :=
  (List.range cnt).map fun i => v.getI16 (off + 2 * i)

end ByteView

/-! ## WebUsb.fillData

`fillData` copies `iqBufLength` 16-bit (or 32-bit) elements, converting
between the two element representations with the converters above. It is
modelled on element lists; `ci16` elements are integers embedded in `ℚ`. -/

/-- `WebUsb.fillData` restricted to one source slice: convert the given
elements of `inT` into elements of `outT`. -/
def fillDataElems (outT inT : DataType) (xs : List ℚ) : List ℚ :=
  match outT, inT with
  | DataType.ci16, DataType.ci16 => xs
  | DataType.cf32, DataType.cf32 => xs
  | DataType.ci16, DataType.cf32 => xs.map fun y => (f32ToI16Elem y : ℚ)
  | DataType.cf32, DataType.ci16 => xs.map fun x => i16ToF32Elem ⌊x⌋

/-! ## RX decoding -/

/-- `RXDecoderOptions`. -/
structure RXDecoderOptions where
  extra_meta : Bool := false
  datatype : Option DataType := none
  id : Option Int := none

/-- `RXBuffer`: the decoded packet handed back to the caller. The `data`
field holds the converted sample elements. -/
structure RXBuffer where
  data : List ℚ
  datatype : DataType
  id : Int
  samples : Nat
  timestamp : Nat
  overrun : Nat
  realigned : Nat
  dropped : Nat
  recvsize : Nat
  deriving Repr

/-- A rejected variant-A decode carries the original caller-supplied id. -/
structure RxReject where
  errmsg : String
  id : Option Int

/-! ### Variant A: WebUsbWsdr -/

namespace WebUsbWsdr

/-- Session state of a variant-A codec: the running timestamp
(`protected _timestamp: bigint`). -/
structure State where
  timestamp : Nat
  deriving Repr

/-- Result of `_fillHeader`: the 16 header bytes written at the offset.
`view64[0]` lays down the truncated 48-bit timestamp in bytes 0..7,
`view64[1] = 0` clears bytes 8..15, then `view16[3]` overwrites bytes 6..7
with the discard flag and `samples - 1`. -/
def headerBytes (discard : Bool) (timestamp : Nat) (samples : Nat) : List Nat :=
  let ts := timestamp % 2 ^ 64 &&& 0x0000ffffffffffff
  let w := ((if discard then 1 else 0) <<< 15) + ((samples - 1) &&& 0x7fff)
  [ts % 2 ^ 8, ts / 2 ^ 8 % 2 ^ 8, ts / 2 ^ 16 % 2 ^ 8, ts / 2 ^ 24 % 2 ^ 8,
   ts / 2 ^ 32 % 2 ^ 8, ts / 2 ^ 40 % 2 ^ 8, w % 2 ^ 8, w / 2 ^ 8,
   0, 0, 0, 0, 0, 0, 0, 0]

/-- `WebUsbWsdr._fillHeader(buf, offset, discard_timestamp, timestamp, samples)`.
Throws (in source order):
1. the validation `Error` when the region from `offset` is shorter than 16
   bytes,
2. the validation `Error` when `samples` is outside `[128, 8192]`,
3. the `RangeError` of `new Uint16Array(buf, offset)` when `offset` or the
   remaining length `bufLen - offset` is odd,
4. the `RangeError` of `new BigUint64Array(buf, offset)` when `offset` or
   the remaining length is not a multiple of 8.
On success it returns the 16 bytes written at `offset`. -/
def fillHeader (bufLen : Nat) (offset : Nat) (discard : Bool)
    (timestamp : Nat) (samples : Nat) : Except String (List Nat) :=
  if (bufLen : Int) - offset < HEADER_SIZE then
    Except.error "WebUsbWsdr.fillHeader: Error: buffer slice must be at least 16 bytes"
  else if samples < MIN_SAMPLES_IN_PKT ∨ MAX_SAMPLES_IN_PKT < samples then
    Except.error "WebUsbWsdr.fillHeader: Error: count of samples in the packet out of range"
  else if offset % 2 ≠ 0 ∨ (bufLen - offset) % 2 ≠ 0 then
    Except.error "RangeError: construction of Uint16Array requires 2-byte alignment"
  else if offset % 8 ≠ 0 ∨ (bufLen - offset) % 8 ≠ 0 then
    Except.error "RangeError: construction of BigUint64Array requires 8-byte alignment"
  else
    Except.ok (headerBytes discard timestamp samples)

/-- `WebUsbWsdr.decodeRxData(data, samples, opts)`. A size mismatch resolves
to a rejected promise carrying the caller id; the happy path updates the
running timestamp by `overrun * samplesRecv`, stamps the result, then
advances it by `samplesRecv`. -/
def decodeRxData (st : State) (data : ByteView) (samples : Nat)
    (opts : RXDecoderOptions) : Except RxReject (State × RXBuffer) :=
  let id : Int := opts.id.getD (-1)
  let extraMeta := opts.extra_meta
  let trailerSize := TRAILER_SIZE + (if extraMeta then TRAILER_EXTRA_SIZE else 0)
  let dataSize : Int := (data.len : Int) - trailerSize
  let samplesRecv : Int := Int.tdiv dataSize 4
  if (samples : Int) ≠ samplesRecv then
    Except.error ⟨"WebUsbWsdr.parseRxData: Unexpected usb packet size", opts.id⟩
  else
    match data.getU64 dataSize with
    | Except.error e => Except.error ⟨e, none⟩
    | Except.ok ts =>
      let overrun := ts &&& 0x0000000000ffffff
      match (if extraMeta then data.getU64 (dataSize + TRAILER_SIZE) else Except.ok 0) with
      | Except.error e => Except.error ⟨e, none⟩
      | Except.ok extra =>
        let realigned := if extraMeta then extra >>> (64 - 20) else 0
        let dropped := if extraMeta then extra &&& 0xffff else 0
        let datatype := opts.datatype.getD DataType.ci16
        let wire := (data.i16Elems 0 (dataSize.toNat / 2)).map fun x => (x : ℚ)
        let output := fillDataElems datatype DataType.ci16 wire
        let ts1 := st.timestamp + overrun * samplesRecv.toNat
        Except.ok (⟨ts1 + samplesRecv.toNat⟩,
          { data := output, datatype := datatype, id := id, samples := samplesRecv.toNat,
            timestamp := ts1, overrun := overrun, realigned := realigned,
            dropped := dropped, recvsize := data.len })

end WebUsbWsdr

/-! ### Variant B: WebUsbLimeSdr -/

namespace WebUsbLimeSdr

/-- Session state of a variant-B codec: the last received header timestamp
(`protected _lastRecvTimestamp = 0n`). -/
structure State where
  lastRecvTimestamp : Nat
  deriving Repr

/-- Result of `_fillHeader`: the 16 header bytes. `setUint8(0)` stores the
discard flag nibble, `setUint16(1, samples * 4, true)` the byte length,
`setUint8(3, 0)` and `setUint32(4, 0)` clear padding, and
`setBigUint64(8, timestamp, true)` the 64-bit timestamp. -/
def headerBytes (discard : Bool) (timestamp : Nat) (samples : Nat) : List Nat :=
  let s4 := samples * COMPLEX_INT16_SIZE % 2 ^ 16
  let ts := timestamp % 2 ^ 64
  [(if discard then 1 else 0) <<< 4, s4 % 2 ^ 8, s4 / 2 ^ 8, 0, 0, 0, 0, 0,
   ts % 2 ^ 8, ts / 2 ^ 8 % 2 ^ 8, ts / 2 ^ 16 % 2 ^ 8, ts / 2 ^ 24 % 2 ^ 8,
   ts / 2 ^ 32 % 2 ^ 8, ts / 2 ^ 40 % 2 ^ 8, ts / 2 ^ 48 % 2 ^ 8, ts / 2 ^ 56 % 2 ^ 8]

/-- `WebUsbLimeSdr._fillHeader(buf, offset, discard_timestamp, timestamp, samples)`.
Throws when the region from `offset` is shorter than 16 bytes, or when
`samples` is not a multiple of 4. The `DataView(buf, offset, 16)` used for
the writes has no alignment requirement and its bounds are implied by the
first check, so no further throw can occur. -/
def fillHeader (bufLen : Nat) (offset : Nat) (discard : Bool)
    (timestamp : Nat) (samples : Nat) : Except String (List Nat) :=
  if (bufLen : Int) - offset < HEADER_SIZE then
    Except.error "WebUsbLimeSdr.fillHeader: Error: buffer slice must be at least 16 bytes"
  else if samples % 4 ≠ 0 then
    Except.error "WebUsbLimeSdr.fillHeader: Error: count of samples must be a multiple of 4"
  else
    Except.ok (headerBytes discard timestamp samples)

/-- One iteration of the decode loop for sub-packets `i, i+1, ..`: compare
adjacent header timestamps to accumulate overrun, and copy
`min(SAMPLES_PER_PACKET, freeSamples)` samples out of each sub-packet. -/
def decodeLoop (data : ByteView) (elementType : DataType) :
    Nat → Nat → Nat → Nat → Nat → (Nat × List ℚ)
  | 0, _, _, overrun, _ => (overrun, [])
  | remaining + 1, i, prevPacketTS, overrun, freeSamples =>
    let packetOffset := i * PACKET_SIZE
    let packetTS := data.readU64 (packetOffset + 8)
    let samplesDelta : Int := (packetTS : Int) - prevPacketTS - SAMPLES_PER_PACKET
    let overrun' := if 0 < samplesDelta
      then overrun + (samplesDelta / SAMPLES_PER_PACKET).toNat else overrun
    let samplesCur := min SAMPLES_PER_PACKET freeSamples
    let chunk :=
      if 0 < samplesCur then
        fillDataElems elementType DataType.ci16
          ((data.i16Elems (packetOffset + HEADER_SIZE) (samplesCur * 2)).map
            fun x => (x : ℚ))
      else []
    let rest := decodeLoop data elementType remaining (i + 1) packetTS overrun'
      (freeSamples - samplesCur)
    (rest.1, chunk ++ rest.2)

/-- `WebUsbLimeSdr.decodeRxData(data, samples, opts)`. Tolerates a partial
last sub-packet (`samplesRecv < samples` throws, more is fine), takes the
result timestamp from the first sub-packet header, accumulates overrun from
adjacent header timestamps, and records the header timestamp as the last
received timestamp. -/
def decodeRxData (_st : State) (data : ByteView) (samples : Nat)
    (opts : RXDecoderOptions) : Except RxReject (State × RXBuffer) :=
  let id : Int := opts.id.getD (-1)
  let packetCnt := data.len / PACKET_SIZE
  let dataSize := data.len - HEADER_SIZE * packetCnt
  let samplesRecv := dataSize / COMPLEX_INT16_SIZE
  if samplesRecv < samples then
    Except.error ⟨"WebUsbLimeSdr.parseRxData: Unexpected usb packet size", none⟩
  else
    match data.getU64 8 with
    | Except.error e => Except.error ⟨e, none⟩
    | Except.ok timestamp =>
      let datatype := opts.datatype.getD DataType.ci16
      let looped := decodeLoop data datatype packetCnt 0 timestamp 0 samples
      Except.ok (⟨timestamp⟩,
        { data := looped.2, datatype := datatype, id := id, samples := samplesRecv,
          timestamp := timestamp, overrun := looped.1, realigned := 0,
          dropped := 0, recvsize := data.len })

end WebUsbLimeSdr

/-! ## packages/core/src/utils/circularbuffer.ts

The backing JavaScript `Array` is a total map from indices to possibly-absent
values (`undefined` holes read back as `none`). `head`, `tail` and the
`full` flag mirror `_bufferHead`, `_bufferTail`, `_bufferFull`. -/

@[ext]
structure CircBuf (α : Type) where
  len : Nat
  buf : Nat → Option α
  head : Nat
  tail : Nat
  full : Bool

namespace CircBuf

/-- A fresh `new CircularBuffer(len)`. -/
def mk0 (α : Type) (len : Nat) : CircBuf α :=
  ⟨len, fun _ => none, 0, 0, false⟩

/-- `capacity()`. -/
def capacity (q : CircBuf α) : Nat := q.len

/-- `size()`. -/
def size (q : CircBuf α) : Nat :=
  if q.full then q.len
  else if q.head ≤ q.tail then q.tail - q.head
  else q.tail + q.len - q.head

/-- `isFull()`. -/
def isFull (q : CircBuf α) : Bool := q.full

/-- `isEmpty()`. -/
def isEmpty (q : CircBuf α) : Bool := q.head == q.tail && !q.full

/-- `front()`. -/
def front (q : CircBuf α) : Option α := q.buf q.head

/-- `back()`. -/
def back (q : CircBuf α) : Option α :=
  q.buf (if 0 < q.tail then q.tail - 1 else q.len - 1)

/-- `clear()`. -/
def clear (q : CircBuf α) : CircBuf α :=
  { q with head := 0, tail := 0, full := false }

/-- `pop_front(cnt)`. -/
def pop_front (q : CircBuf α) (cnt : Nat) : CircBuf α :=
  if cnt < 1 then q
  else
    let cntBiggerSize := q.size ≤ cnt
    let head := (q.head + cnt) % q.len
    { q with
      head := head
      tail := (if cntBiggerSize then head else q.tail)
      full := false }

/-- `pop_back(cnt)`. -/
def pop_back (q : CircBuf α) (cnt : Nat) : CircBuf α :=
  if cnt < 1 then q
  else
    let cntBiggerSize := q.size ≤ cnt
    let c := cnt % q.len
    let tail := if q.tail < c then q.len - (c - q.tail) else q.tail - c
    { q with
      tail := tail
      head := (if cntBiggerSize then tail else q.head)
      full := false }

/-- `push_front(val)`: a full buffer first evicts its back element. -/
def push_front (q : CircBuf α) (val : α) : CircBuf α :=
  let q := if q.full then q.pop_back 1 else q
  let head := if q.head = 0 then q.len - 1 else q.head - 1
  { q with
    head := head
    full := (head == q.tail)
    buf := fun i => if i = head then some val else q.buf i }

/-- `push_back(val)`: a full buffer first evicts its front element. -/
def push_back (q : CircBuf α) (val : α) : CircBuf α :=
  let q := if q.full then q.pop_front 1 else q
  let tail := (q.tail + 1) % q.len
  { q with
    tail := tail
    full := (q.head == tail)
    buf := fun i => if i = q.tail then some val else q.buf i }

/-- `alloc_front(cnt)`. -/
def alloc_front (q : CircBuf α) (cnt : Nat) : CircBuf α :=
  if cnt < 1 then q
  else
    let free := q.capacity - q.size
    let q1 :=
      if free < cnt then
        let q2 := q.pop_back (cnt - free)
        { q2 with head := q2.tail }
      else
        { q with head := if q.head < cnt then q.len - (cnt - q.head) else q.head - cnt }
    { q1 with full := q1.head == q1.tail }

/-- `alloc_back(cnt)`. -/
def alloc_back (q : CircBuf α) (cnt : Nat) : CircBuf α :=
  if cnt < 1 then q
  else
    let free := q.capacity - q.size
    let q1 :=
      if free < cnt then
        let q2 := q.pop_front (cnt - free)
        { q2 with tail := q2.head }
      else
        { q with tail := (q.tail + cnt) % q.len }
    { q1 with full := q1.head == q1.tail }

/-- The state-changing operations of the class. -/
inductive Op (α : Type) where
  | clear
  | push_front (val : α)
  | push_back (val : α)
  | pop_front (cnt : Nat)
  | pop_back (cnt : Nat)
  | alloc_front (cnt : Nat)
  | alloc_back (cnt : Nat)

/-- Apply one operation. -/
def applyOp (q : CircBuf α) : Op α → CircBuf α
  | Op.clear => q.clear
  | Op.push_front v => q.push_front v
  | Op.push_back v => q.push_back v
  | Op.pop_front c => q.pop_front c
  | Op.pop_back c => q.pop_back c
  | Op.alloc_front c => q.alloc_front c
  | Op.alloc_back c => q.alloc_back c

/-- Structural well-formedness: positive capacity and in-range indices.
It holds for a fresh buffer and is preserved by every operation. -/
def WF (q : CircBuf α) : Prop :=
  0 < q.len ∧ q.head < q.len ∧ q.tail < q.len

/-- The stored sequence, front to back. -/
def contents (q : CircBuf α) : List (Option α) :=
  (List.range q.size).map fun i => q.buf ((q.head + i) % q.len)

end CircBuf

/-! ## WebUsb session (webUsbBase.ts)

All per-session logic runs on one event loop; every `await` is an explicit
suspension point. The TX pipeline and the command queue are modelled as
small transition systems whose atomic steps are the code fragments between
suspension points. -/

namespace WebUsb

/-- `static MAX_SEND_DATA_REQUEST = 128`. -/
def MAX_SEND_DATA_REQUEST : Nat := 128

/-- Command-queue capacity: `new CircularBuffer<CommandRequest>(100)`. -/
def COMMAND_QUEUE_CAPACITY : Nat := 100

/-! ### TX backpressure (`sendTxRawPacket` / `_sendTxPacket`) -/

/-- The mutable TX flow-control state of one session:
`_sendDataReqCnt` plus the number of callers currently suspended in the
`while (cnt >= MAX) await waitForChangeSendDataReq()` loop. -/
structure TxState where
  sendDataReqCnt : Nat
  blocked : Nat
  deriving Repr, DecidableEq

/-- Events at a session's TX suspension points: a call to
`sendTxRawPacket(pkt, allowDrop)`, a `transferOut` resolution with an ok
status and full byte count, or any other resolution (error status, short
write, or exception). -/
inductive TxEvent where
  | submit (allowDrop : Bool)
  | transferComplete
  | transferFail
  deriving Repr, DecidableEq

/-- What one step did with the triggering request. -/
inductive TxOutcome where
  | issued
  | dropped
  | blockedOutcome
  | noop
  deriving Repr, DecidableEq

/-- A transfer resolution: both the `.then` branch and the `.catch` branch
of `_sendTxPacket` run `--this.sendDataReqCnt`; the setter fires the pending
waiter, whose continuation re-checks the `while` guard and, if the counter
dropped below the maximum, increments it and issues the waiting transfer. -/
def txFinish (s : TxState) : TxState × TxOutcome :=
  if s.sendDataReqCnt = 0 then (s, TxOutcome.noop)
  else
    let c := s.sendDataReqCnt - 1
    if 0 < s.blocked ∧ c < MAX_SEND_DATA_REQUEST then
      (⟨c + 1, s.blocked - 1⟩, TxOutcome.issued)
    else
      ({ s with sendDataReqCnt := c }, TxOutcome.noop)

/-- One atomic step of the TX pipeline. A submission checks
`sendDataReqCnt >= MAX_SEND_DATA_REQUEST`: at capacity it is rejected
immediately when `allowDrop` and suspended otherwise; below capacity the
counter is incremented (no suspension point between check and increment)
and the transfer is issued. -/
def txStep (s : TxState) : TxEvent → TxState × TxOutcome
  | TxEvent.submit allowDrop =>
    if MAX_SEND_DATA_REQUEST ≤ s.sendDataReqCnt then
      if allowDrop then (s, TxOutcome.dropped)
      else ({ s with blocked := s.blocked + 1 }, TxOutcome.blockedOutcome)
    else
      ({ s with sendDataReqCnt := s.sendDataReqCnt + 1 }, TxOutcome.issued)
  | TxEvent.transferComplete => txFinish s
  | TxEvent.transferFail => txFinish s

/-- Run a sequence of TX events. -/
def txRun (s : TxState) : List TxEvent → TxState
  | [] => s
  | e :: es => txRun (txStep s e).1 es

/-! ### Command channel (`sendCommand` / `runCommandPool` / `_sendCommand`) -/

/-- Observable events of the command channel, per command request:
the native `send_command` call starting, its reply being observed, and the
request's continuation settling. -/
inductive CmdEvent (α : Type) where
  | nativeStart (r : α)
  | replyObserved (r : α)
  | resolved (r : α)
  | rejected (r : α)
  deriving Repr, DecidableEq

/-- The native round trip for one request, as seen by `runCommandPool`:
`_sendCommand` issues the call and returns the parsed reply; the oracle
`native` gives the `error` field of that reply (`none` when absent). A
reply with an `error` field rejects the request's continuation, any other
reply resolves it. -/
def sendCommandEvents (native : α → Option Int) (r : α) : List (CmdEvent α) :=
  [CmdEvent.nativeStart r, CmdEvent.replyObserved r,
   match native r with
   | some _ => CmdEvent.rejected r
   | none => CmdEvent.resolved r]

/-- The drain loop of `runCommandPool`: while the queue is not empty, take
`front()`, perform the round trip when it is a real entry, then
`pop_front()`. Recursion is on a fuel bounded by the queue size. -/
def drainPool (native : α → Option Int) : Nat → CircBuf α → CircBuf α × List (CmdEvent α)
  | 0, q => (q, [])
  | fuel + 1, q =>
    if q.isEmpty then (q, [])
    else
      let evs := match q.front with
        | some r => sendCommandEvents native r
        | none => []
      let step := drainPool native fuel (q.pop_front 1)
      (step.1, evs ++ step.2)

/-- `runCommandPool()`: returns immediately when `_sendCommandInProcess` is
already set; otherwise sets the flag, drains the queue in FIFO order, and
clears the flag. Result: new flag, new queue, trace of events. -/
def runCommandPool (native : α → Option Int) (inProcess : Bool) (q : CircBuf α) :
    Bool × CircBuf α × List (CmdEvent α) :=
  if inProcess then (inProcess, q, [])
  else
    let d := drainPool native q.size q
    (false, d.1, d.2)

/-- `sendCommand(req)`: push the request (with its continuation) onto the
command queue, then trigger `runCommandPool`. -/
def sendCommand (native : α → Option Int) (r : α) (inProcess : Bool) (q : CircBuf α) :
    Bool × CircBuf α × List (CmdEvent α) :=
  runCommandPool native inProcess (q.push_back r)

/-- Single-flight check over a trace: scan holding the number of native
calls whose reply has not yet been observed; it must never reach two. -/
def singleFlightFrom : Nat → List (CmdEvent α) → Bool
  | _, [] => true
  | inFlight, CmdEvent.nativeStart _ :: es =>
    if 1 ≤ inFlight then false else singleFlightFrom (inFlight + 1) es
  | inFlight, CmdEvent.replyObserved _ :: es => singleFlightFrom (inFlight - 1) es
  | inFlight, _ :: es => singleFlightFrom inFlight es

/-- A trace keeps at most one native command round trip in progress. -/
def singleFlight (tr : List (CmdEvent α)) : Bool :=
  singleFlightFrom 0 tr

end WebUsb

/-! ## webUsbDeviceManager.ts -/

namespace WebUsbDeviceManager

/-- One open session as the manager sees it: the handle stored in the
session object and the device identity. -/
structure Session where
  fd : Nat
  vid : Nat
  pid : Nat
  deriving Repr, DecidableEq

/-- The `webUsbDevices` array: a JavaScript array with possible
`undefined` holes. -/
abbrev DevTable : Type := List (Option Session)

/-- The scan for an already-open session with the same identity (the first
`for` loop of `open`). -/
def findOpened : DevTable → Nat → Nat → Option Session
  | [], _, _ => none
  | some d :: rest, vid, pid =>
    if d.vid = vid ∧ d.pid = pid then some d else findOpened rest vid pid
  | none :: rest, vid, pid => findOpened rest vid pid

/-- The scan for the first free (undefined) slot (the second `for` loop). -/
def firstFreeSlot : DevTable → Option Nat
  | [] => none
  | none :: _ => some 0
  | some _ :: rest => (firstFreeSlot rest).map (· + 1)

/-- JavaScript array element assignment: extends the array (with holes)
when the index is at or past the current length. -/
def jsArraySet (l : DevTable) (i : Nat) (v : Option Session) : DevTable :=
  (l ++ List.replicate (i + 1 - l.length) none).set i v

/-- `WebUsbDeviceManager.open(vid, pid)`. `supported` tells whether
`getWebUsbInstance` produces a session object for the identity (it returns
`undefined` for an unsupported device, which is then stored in the slot).
When an open session with the same identity exists it is returned as is;
otherwise the handle is the first free slot, or slot 0 when none is free. -/
def openDevice (supported : Nat → Nat → Bool) (devs : DevTable) (vid pid : Nat) :
    DevTable × Option Session :=
  match findOpened devs vid pid with
  | some dev => (devs, some dev)
  | none =>
    let fd := (firstFreeSlot devs).getD 0
    let inst : Option Session := if supported vid pid then some ⟨fd, vid, pid⟩ else none
    (jsArraySet devs fd inst, inst)

/-- Every stored session holds the index of its own slot as its handle;
this is the invariant making handles unique among open sessions. -/
def FdInv (devs : DevTable) : Prop :=
  ∀ i : Nat, ∀ d : Session, devs.getD i none = some d → d.fd = i

end WebUsbDeviceManager

/-! ## ControlWebUsb.setParameter (controlWebUsb.ts)

The per-key `DeferredParameter` record and the `now = false` path of
`setParameter`. Entries of `_changeParmTimers` are independent per key, so
one key's record is modelled. Time is the millisecond clock (`Date.now()`);
a pending `setTimeout` fires at its scheduled time, before any call with a
later-or-equal current time is processed. -/

namespace ControlWebUsb

/-- `static SET_PARAMETER_TIMEOUT = 250`. -/
def SET_PARAMETER_TIMEOUT : Nat := 250

/-- `DeferredParameter`: the pending timer (scheduled fire time plus the
arguments captured when the timer was created) and `lastTime`. A missing
map entry behaves as `{ timer: undefined, lastTime: 0 }`. -/
structure DeferredParameter (α : Type) where
  timer : Option (Nat × α)
  lastTime : Nat
  deriving Repr, DecidableEq

/-- Fire the pending timer if its scheduled time has been reached: the
callback clears the timer, sets `lastTime` to the fire time, and sends the
arguments captured at timer creation. -/
def fireDue (st : DeferredParameter α) (t : Nat) :
    DeferredParameter α × List (Nat × α) :=
  match st.timer with
  | some (ft, a) =>
    if ft ≤ t then (⟨none, ft⟩, [(ft, a)]) else (st, [])
  | none => (st, [])

/-- One `setParameter(parm, args, now = false)` call at time `t`:
if more than the window elapsed since `lastTime` the command is sent
immediately (a pending timer is left running); otherwise, if no timer is
pending, a timer is created capturing these `args`; otherwise the call does
nothing. -/
def setParameterCall (st : DeferredParameter α) (t : Nat) (args : α) :
    DeferredParameter α × List (Nat × α) :=
  if SET_PARAMETER_TIMEOUT < t - st.lastTime then
    ({ st with lastTime := t }, [(t, args)])
  else
    match st.timer with
    | none => ({ st with timer := some (t + SET_PARAMETER_TIMEOUT, args) }, [])
    | some _ => (st, [])

/-- Process a time-ordered list of `setParameter` calls for one key,
firing the timer when due; a timer still pending after the last call fires
at its scheduled time. Returns the wire commands as (time, args) pairs. -/
def runSetParameter (st : DeferredParameter α) : List (Nat × α) → List (Nat × α)
  | [] =>
    match st.timer with
    | some (ft, a) => [(ft, a)]
    | none => []
  | (t, a) :: rest =>
    let f := fireDue st t
    let c := setParameterCall f.1 t a
    f.2 ++ c.2 ++ runSetParameter c.1 rest

end ControlWebUsb

/-! ## WebUsbWorkerManager (webUsbManager.ts, remote mode) -/

namespace WebUsbWorkerManager

/-- The message types posted to the worker. -/
inductive WorkerMsgType where
  | START | STOP | OPEN | CLOSE | CLOSE_ALL
  | GET_DEV_NAME | GET_SERIAL_NUMBER | GET_RX_SAMPLES_COUNT
  | SEND_COMMAND | SEND_DEBUG_COMMAND | SUBMIT_RX_PACKET | SEND_TX_PACKET
  | GET_STREAM_STATUS | SET_STREAM_STATUS | GET_CONFIGURATION
  | GET_OPENED_DEVICE_LIST
  deriving Repr, DecidableEq

/-- Caller-side state: whether `this.worker` currently holds a worker
instance. The field is assigned synchronously inside `startWorker`,
independently of the `START` handshake completing. -/
structure MgrState where
  worker : Bool
  deriving Repr, DecidableEq

/-- The error thrown by the guard of every operation except `open`. -/
def workerNotRunning : String := "WebUsbManager: worker is not running"

/-- The façade operations of `WebUsbWorkerManager` with the arguments
relevant to their guards. -/
inductive MgrOp where
  | openOp (vid pid : Option Nat)
  | close (fd : Int)
  | closeAll
  | getName (fd : Int)
  | getSerialNumber (fd : Int)
  | getRXSamplesCount (fd : Int) (samples : Nat)
  | sendCommand (fd : Int)
  | sendDebugCommand (fd : Int)
  | submitRxPacket (fd : Int) (samples : Nat)
  | sendTxPacket (fd : Int)
  | getStreamStatus (fd : Int)
  | setStreamStatus (fd : Int)
  | getConfiguration (fd : Int)
  | getOpenedDeviceList
  deriving Repr, DecidableEq

/-- Whether the operation is `open`. -/
def MgrOp.isOpen : MgrOp → Bool
  | MgrOp.openOp _ _ => true
  | _ => false

/-- `open(vendorId?, productId?)`: undefined identity resolves to -1 with
no message; with no worker instance it calls `startWorker()` (which creates
a worker, rewires observers and posts the `START` handshake) and then posts
`OPEN`; it never throws the not-running error. -/
def mgrOpen (vid pid : Option Nat) (s : MgrState) :
    MgrState × Except String (List WorkerMsgType) :=
  if vid.isNone ∨ pid.isNone then (s, Except.ok [])
  else if s.worker then (s, Except.ok [WorkerMsgType.OPEN])
  else (⟨true⟩, Except.ok [WorkerMsgType.START, WorkerMsgType.OPEN])

/-- One façade call: every operation except `open` first checks
`if (!this.worker) throw new Error('WebUsbManager: worker is not running')`
and otherwise posts exactly one correlated request message. `close`
resolves silently for a negative handle (after the guard). -/
def mgrCall : MgrOp → MgrState → MgrState × Except String (List WorkerMsgType)
  | MgrOp.openOp vid pid, s => mgrOpen vid pid s
  | MgrOp.close fd, s =>
    if !s.worker then (s, Except.error workerNotRunning)
    else if fd < 0 then (s, Except.ok [])
    else (s, Except.ok [WorkerMsgType.CLOSE])
  | MgrOp.closeAll, s =>
    if !s.worker then (s, Except.error workerNotRunning)
    else (s, Except.ok [WorkerMsgType.CLOSE_ALL])
  | MgrOp.getName _, s =>
    if !s.worker then (s, Except.error workerNotRunning)
    else (s, Except.ok [WorkerMsgType.GET_DEV_NAME])
  | MgrOp.getSerialNumber _, s =>
    if !s.worker then (s, Except.error workerNotRunning)
    else (s, Except.ok [WorkerMsgType.GET_SERIAL_NUMBER])
  | MgrOp.getRXSamplesCount _ _, s =>
    if !s.worker then (s, Except.error workerNotRunning)
    else (s, Except.ok [WorkerMsgType.GET_RX_SAMPLES_COUNT])
  | MgrOp.sendCommand _, s =>
    if !s.worker then (s, Except.error workerNotRunning)
    else (s, Except.ok [WorkerMsgType.SEND_COMMAND])
  | MgrOp.sendDebugCommand _, s =>
    if !s.worker then (s, Except.error workerNotRunning)
    else (s, Except.ok [WorkerMsgType.SEND_DEBUG_COMMAND])
  | MgrOp.submitRxPacket _ _, s =>
    if !s.worker then (s, Except.error workerNotRunning)
    else (s, Except.ok [WorkerMsgType.SUBMIT_RX_PACKET])
  | MgrOp.sendTxPacket _, s =>
    if !s.worker then (s, Except.error workerNotRunning)
    else (s, Except.ok [WorkerMsgType.SEND_TX_PACKET])
  | MgrOp.getStreamStatus _, s =>
    if !s.worker then (s, Except.error workerNotRunning)
    else (s, Except.ok [WorkerMsgType.GET_STREAM_STATUS])
  | MgrOp.setStreamStatus _, s =>
    if !s.worker then (s, Except.error workerNotRunning)
    else (s, Except.ok [WorkerMsgType.SET_STREAM_STATUS])
  | MgrOp.getConfiguration _, s =>
    if !s.worker then (s, Except.error workerNotRunning)
    else (s, Except.ok [WorkerMsgType.GET_CONFIGURATION])
  | MgrOp.getOpenedDeviceList, s =>
    if !s.worker then (s, Except.error workerNotRunning)
    else (s, Except.ok [WorkerMsgType.GET_OPENED_DEVICE_LIST])

end WebUsbWorkerManager

/-! ## Helper definitions used by the statements below -/

/-- Whether an `Except` computation threw. -/
def exceptIsError : Except ε α → Bool
  | Except.error _ => true
  | Except.ok _ => false

namespace WebUsb

/-- Events produced for one queue cell: a real entry performs the round
trip, an `undefined` hole is skipped (`if (com_req)`). -/
def cellEvents (native : α → Option Int) : Option α → List (CmdEvent α)
  | some r => sendCommandEvents native r
  | none => []

end WebUsb

namespace WebUsb

/-! #### Interleaved command channel

`runCommandPool` is `async` and `sendCommand` invokes it without `await`,
so several invocations (drains) can be live at once, interleaving at the
`await` points over the shared `_sendCommandInProcess` flag and command
queue. A live drain is suspended either at `await ccall("send_command")`
inside `_sendCommand` (its native call is in flight) or, after
`_sendCommand` has already run `this._sendCommandInProcess = false` and
returned, at the microtask boundary before the `await
this._sendCommand(...)` continuation in `runCommandPool` resumes. The
reply-processing tail of `_sendCommand` runs with the flag still set and
touches no other shared state, so it is folded into the reply-delivery
step. -/

/-- One live `runCommandPool` invocation. `r` is the `com_req` captured by
`front()` before its native call started; `pop_front` runs only after the
continuation resumes. -/
inductive TaskSt (α : Type) where
  | awaitingNative (r : α)
  | pendingResume (r : α)
  deriving Repr, DecidableEq

/-- Shared session state plus the live drains (task id = index, `none` =
finished drain). -/
structure PoolSt (α : Type) where
  flag : Bool
  queue : CircBuf α
  tasks : List (Option (TaskSt α))

/-- The synchronous part of the drain loop starting at the `while` guard:
`undefined` cells fail `if (com_req)` and are popped without suspending;
the first real entry is returned still unpopped (its `pop_front` only runs
after its round trip). Fuel bounds the popping; callers pass the queue
size. -/
def skipHoles : Nat → CircBuf α → CircBuf α × Option α
  | 0, q => (q, none)
  | fuel + 1, q =>
    if q.isEmpty then (q, none)
    else
      match q.front with
      | some r => (q, some r)
      | none => skipHoles fuel (q.pop_front 1)

/-- Scheduler events: a `sendCommand(r)` call (push plus the synchronous
prefix of the triggered `runCommandPool`); delivery of the native reply to
the drain `t` suspended at the `ccall` await, which also runs
`_sendCommand`'s tail and so clears `_sendCommandInProcess` before
returning; and the microtask that resumes drain `t`'s `await
this._sendCommand(...)` continuation. -/
inductive PoolEv (α : Type) where
  | submit (r : α)
  | nativeReply (t : Nat)
  | taskResume (t : Nat)
  deriving Repr, DecidableEq

/-- The scheduler-event glossary for `poolStep`.

`submit r`: `push_back`, then `runCommandPool()` synchronously: if the
flag is set it returns at the guard; otherwise it sets the flag, walks the
loop to the first real entry and calls `_sendCommand` on it, which starts
the native call and suspends as a fresh drain (if the walk empties the
queue the flag is cleared and no drain is created).

`nativeReply t`: the native reply for drain `t` is observed;
`_sendCommand` finishes, clearing the flag, and drain `t` waits for the
microtask resuming `runCommandPool`.

`taskResume t`: drain `t` settles its captured request (reject on a reply
with an `error` field, resolve otherwise), runs `pop_front()`, and walks
the loop again: on a real front entry it starts that native call (setting
the flag via `_sendCommand`) and suspends; on an emptied queue it clears
the flag and finishes.

A drain settles its request per the reply: one with an `error` field
rejects the continuation, any other resolves it (the same discrimination
`sendCommandEvents` records). -/
def settleEvent (native : α → Option Int) (r : α) : CmdEvent α :=
  match native r with
  | some _ => CmdEvent.rejected r
  | none => CmdEvent.resolved r

/-- One atomic step of the interleaved command channel (see `settleEvent`
above for the event glossary). -/
def poolStep (native : α → Option Int) (s : PoolSt α) :
    PoolEv α → PoolSt α × List (CmdEvent α)
  | PoolEv.submit r =>
    let q := s.queue.push_back r
    if s.flag then ({ s with queue := q }, [])
    else
      match skipHoles q.size q with
      | (q', none) => (⟨false, q', s.tasks⟩, [])
      | (q', some r') =>
        (⟨true, q', s.tasks ++ [some (TaskSt.awaitingNative r')]⟩,
         [CmdEvent.nativeStart r'])
  | PoolEv.nativeReply t =>
    match s.tasks.getD t none with
    | some (TaskSt.awaitingNative r) =>
      (⟨false, s.queue, s.tasks.set t (some (TaskSt.pendingResume r))⟩,
       [CmdEvent.replyObserved r])
    | _ => (s, [])
  | PoolEv.taskResume t =>
    match s.tasks.getD t none with
    | some (TaskSt.pendingResume r) =>
      let q1 := s.queue.pop_front 1
      match skipHoles q1.size q1 with
      | (q', none) => (⟨false, q', s.tasks.set t none⟩, [settleEvent native r])
      | (q', some r') =>
        (⟨true, q', s.tasks.set t (some (TaskSt.awaitingNative r'))⟩,
         [settleEvent native r, CmdEvent.nativeStart r'])
    | _ => (s, [])

/-- Run a schedule of events, collecting the trace. -/
def poolRun (native : α → Option Int) : PoolSt α → List (PoolEv α) →
    PoolSt α × List (CmdEvent α)
  | s, [] => (s, [])
  | s, e :: es =>
    let st := poolStep native s e
    let rest := poolRun native st.1 es
    (rest.1, st.2 ++ rest.2)

/-- Native `send_command` round trips currently in flight: drains suspended
at the `ccall` await. -/
def inFlightCount (s : PoolSt α) : Nat :=
  s.tasks.countP fun o => match o with
    | some (TaskSt.awaitingNative _) => true
    | _ => false

/-- The no-interference schedule: each native reply is followed at once by
the drain's resumption, with no `sendCommand` call in between; `n` bounds
the number of round trips. -/
def seqSched (α : Type) : Nat → List (PoolEv α)
  | 0 => []
  | n + 1 => PoolEv.nativeReply 0 :: PoolEv.taskResume 0 :: seqSched α n

end WebUsb

/-- Concrete RX packet for the variant-A codec: 12 bytes, a 4-byte payload
(one sample) followed by the 8-byte trailer whose overrun field is 2. -/
def wsdrCexView : ByteView :=
  ⟨12, fun i => if i = 4 then 2 else 0⟩

/-- Concrete RX packet for the variant-B codec: one full 4096-byte
sub-packet whose header timestamp (bytes 8..15, little endian) is 5000. -/
def limeCexView : ByteView :=
  ⟨4096, fun i => if i = 8 then 0x88 else if i = 9 then 0x13 else 0⟩

/-- Degenerate variant-B RX buffer: 16 bytes (no whole sub-packet), header
timestamp 5000; decodes successfully with 4 samples reported. -/
def limeSmallView : ByteView :=
  ⟨16, fun i => if i = 8 then 0x88 else if i = 9 then 0x13 else 0⟩

/-- The `RXBuffer` produced by decoding `wsdrCexView` with running
timestamp 10: overrun 2, one sample, result timestamp 10 + 2 * 1 = 12. -/
def wsdrCexRet : RXBuffer :=
  ⟨[0, 0], DataType.ci16, -1, 1, 12, 2, 0, 0, 12⟩

/-- The `RXBuffer` produced by decoding `limeSmallView`: the header
timestamp 5000 is returned unchanged. -/
def limeSmallRet : RXBuffer :=
  ⟨[], DataType.ci16, -1, 4, 5000, 0, 0, 0, 16⟩

end WebSdr

/-! # Theorems -/

namespace WebSdr

/-! ## Sample conversion (claim C7) -/

lemma toInt16_add_wrap (n : Int) : toInt16 (n + 65536) = toInt16 n := by
  have h : (n + 65536) % 65536 = n % 65536 := by omega
  simp only [toInt16, h]

lemma toInt16_of_range (n : Int) (h1 : -32768 ≤ n) (h2 : n < 32768) : toInt16 n = n := by
  simp only [toInt16]
  split <;> omega

lemma bufferI16ToF32_len (xs : List Int) : (bufferI16ToF32 xs none).length = xs.length := by
  simp [bufferI16ToF32]

lemma bufferF32ToI16_len (ys : List ℚ) : (bufferF32ToI16 ys none).length = ys.length := by
  simp [bufferF32ToI16]

lemma bufferI16ToF32_elem (xs : List Int) (i : Nat) (h : i < xs.length) :
    (bufferI16ToF32 xs none).getD i 0 = (xs.getD i 0 : ℚ) / 32768 := by
  have hlen : i < (bufferI16ToF32 xs none).length := by
    rw [bufferI16ToF32_len]; exact h
  rw [List.getD_eq_getElem _ _ hlen]
  simp [bufferI16ToF32, List.getElem_mapIdx, h, i16ToF32Elem]

lemma bufferF32ToI16_elem (ys : List ℚ) (i : Nat) (h : i < ys.length) :
    (bufferF32ToI16 ys none).getD i 0 = toInt16 (jsTrunc (ys.getD i 0 * 32767)) := by
  have hlen : i < (bufferF32ToI16 ys none).length := by
    rw [bufferF32ToI16_len]; exact h
  rw [List.getD_eq_getElem _ _ hlen]
  simp [bufferF32ToI16, List.getElem_mapIdx, h, f32ToI16Elem]

/-- C7 (corrected). `bufferI16ToF32` maps each element to `x / 32768`
exactly as the claim states, and the conversions are mutually inverse on
in-range values; but `bufferF32ToI16` truncates `y * 32767` toward zero
(the `ToInt16` store conversion), it does not round to nearest. There is no
clamping: the truncated value is wrapped modulo `2 ^ 16`. -/
theorem sample_conversion_spec :
    (∀ xs : List Int, (bufferI16ToF32 xs none).length = xs.length) ∧
    (∀ (xs : List Int) (i : Nat), i < xs.length →
      (bufferI16ToF32 xs none).getD i 0 = (xs.getD i 0 : ℚ) / 32768) ∧
    (∀ ys : List ℚ, (bufferF32ToI16 ys none).length = ys.length) ∧
    (∀ (ys : List ℚ) (i : Nat), i < ys.length →
      (bufferF32ToI16 ys none).getD i 0 = toInt16 (jsTrunc (ys.getD i 0 * 32767))) ∧
    (∀ n : Int, toInt16 (n + 65536) = toInt16 n) ∧
    (∀ n : Int, -32768 ≤ n → n < 32768 → toInt16 n = n) := by
  exact ⟨bufferI16ToF32_len, bufferI16ToF32_elem, bufferF32ToI16_len, bufferF32ToI16_elem,
    toInt16_add_wrap, toInt16_of_range⟩

/-- Witness for C7 at concrete inputs. -/
theorem sample_conversion_spec_witness :
    (0 : Nat) < 1 ∧
    (bufferI16ToF32 [16384] none).getD 0 0 = ((16384 : Int) : ℚ) / 32768 ∧
    (bufferF32ToI16 [2] none).getD 0 0 = toInt16 (jsTrunc ((2 : ℚ) * 32767)) ∧
    toInt16 (40000 + 65536) = toInt16 40000 ∧ toInt16 1234 = 1234 := by
  refine ⟨by decide, sample_conversion_spec.2.1 [16384] 0 (by decide),
    sample_conversion_spec.2.2.2.1 [2] 0 (by decide),
    sample_conversion_spec.2.2.2.2.1 40000,
    sample_conversion_spec.2.2.2.2.2 1234 (by decide) (by decide)⟩

/-- C7 counterexample: at the exactly-representable float 1/2 the code
stores `trunc(0.5 * 32767) = 16383`, while the claimed `round(y * 32767)`
is 16384. -/
theorem f32ToI16_round_counterexample :
    (bufferF32ToI16 [1 / 2] none).getD 0 0 = 16383 ∧
    toInt16 (jsRound ((1 / 2 : ℚ) * 32767)) = 16384 ∧ (16383 : Int) ≠ 16384 := by
  refine ⟨?_, ?_, by decide⟩
  · rw [bufferF32ToI16_elem [1 / 2] 0 (by norm_num)]
    norm_num [jsTrunc, toInt16]
  · norm_num [jsRound, toInt16]

/-! ## Packet size functions (claim C8) -/

lemma land_mask_eq (x : Nat) (hx : x < 2 ^ 20) :
    x &&& 0xffe00 = 512 * (x / 512) := by
  have hmask : (0xffe00 : Nat) = (2 ^ 11 - 1) <<< 9 := by decide
  have hdiv : 512 * (x / 512) = (x >>> 9) <<< 9 := by
    rw [Nat.shiftRight_eq_div_pow, Nat.shiftLeft_eq]
    show 512 * (x / 512) = x / 2 ^ 9 * 2 ^ 9
    norm_num [Nat.mul_comm]
  rw [hmask, hdiv]
  apply Nat.eq_of_testBit_eq
  intro i
  rw [Nat.testBit_land, Nat.testBit_shiftLeft, Nat.testBit_shiftLeft,
    Nat.testBit_shiftRight, Nat.testBit_two_pow_sub_one]
  by_cases h9 : 9 ≤ i
  · by_cases h20 : i < 20
    · have : 9 + (i - 9) = i := by omega
      simp [h9, this, h20, Nat.lt_of_lt_of_le]
      omega
    · have hxi : x.testBit i = false := by
        apply Nat.testBit_lt_two_pow
        calc x < 2 ^ 20 := hx
        _ ≤ 2 ^ i := Nat.pow_le_pow_right (by norm_num) (by omega)
      have : 9 + (i - 9) = i := by omega
      simp [h9, this, hxi]
  · simp [h9]

lemma wsdrRX_eq_div (s : Nat) (h : s ≤ 262016) :
    WebUsbWsdr.getRXPacketSize s = 512 * ((s * 4 + 511) / 512) + 2560 := by
  have hlt : s * 4 + 511 < 2 ^ 20 := by omega
  have hmod : (s * 4 + 511) % 2 ^ 32 = s * 4 + 511 :=
    Nat.mod_eq_of_lt (by omega)
  have hmask : WebUsbWsdr.MAX_PACKET_MASK = 0xffe00 := by decide
  simp only [WebUsbWsdr.getRXPacketSize, COMPLEX_INT16_SIZE, WebUsbWsdr.PACKET_ALIGN_MASK,
    WebUsbWsdr.PACKET_ALIGN, WebUsbWsdr.EXTRA_RX_DATA, hmask, hmod]
  rw [land_mask_eq _ hlt]

lemma limeTX_step (s : Nat) :
    WebUsbLimeSdr.getTXPacketSize s ≤ WebUsbLimeSdr.getTXPacketSize (s + 1) := by
  have hspp : WebUsbLimeSdr.SAMPLES_PER_PACKET = 1020 := by decide
  simp only [WebUsbLimeSdr.getTXPacketSize, hspp, WebUsbLimeSdr.PACKET_SIZE,
    WebUsbLimeSdr.HEADER_SIZE, COMPLEX_INT16_SIZE]
  split_ifs <;> omega

/-- C8 (corrected). Variant A's `getTXPacketSize` and both of variant B's
size functions are non-decreasing, and variant A's `getRXPacketSize` is
non-decreasing up to 262016 samples; beyond that the 20-bit packet mask
wraps and the size collapses. Variant A's sizes are always at least the
16-byte header overhead; variant B's sizes satisfy the bound only for a
positive sample count, both being 0 at zero samples. -/
theorem packet_size_monotonicity :
    (∀ s t : Nat, s ≤ t → WebUsbWsdr.getTXPacketSize s ≤ WebUsbWsdr.getTXPacketSize t) ∧
    (∀ s t : Nat, s ≤ t → t ≤ 262016 →
      WebUsbWsdr.getRXPacketSize s ≤ WebUsbWsdr.getRXPacketSize t) ∧
    (∀ s t : Nat, s ≤ t → WebUsbLimeSdr.getRXPacketSize s ≤ WebUsbLimeSdr.getRXPacketSize t) ∧
    (∀ s t : Nat, s ≤ t → WebUsbLimeSdr.getTXPacketSize s ≤ WebUsbLimeSdr.getTXPacketSize t) ∧
    (∀ s : Nat, 16 ≤ WebUsbWsdr.getTXPacketSize s ∧ 16 ≤ WebUsbWsdr.getRXPacketSize s) ∧
    (∀ s : Nat, 1 ≤ s →
      16 ≤ WebUsbLimeSdr.getRXPacketSize s ∧ 16 ≤ WebUsbLimeSdr.getTXPacketSize s) := by
  have hspp : WebUsbLimeSdr.SAMPLES_PER_PACKET = 1020 := by decide
  refine ⟨?_, ?_, ?_, ?_, ?_, ?_⟩
  · intro s t h
    simp only [WebUsbWsdr.getTXPacketSize, COMPLEX_INT16_SIZE, WebUsbWsdr.HEADER_SIZE]
    omega
  · intro s t h ht
    rw [wsdrRX_eq_div s (by omega), wsdrRX_eq_div t ht]
    have := Nat.div_le_div_right (c := 512) (by omega : s * 4 + 511 ≤ t * 4 + 511)
    omega
  · intro s t h
    simp only [WebUsbLimeSdr.getRXPacketSize, hspp, WebUsbLimeSdr.PACKET_SIZE]
    have := Nat.div_le_div_right (c := 1020) (by omega : s + 1020 - 1 ≤ t + 1020 - 1)
    omega
  · intro s t h
    exact monotone_nat_of_le_succ limeTX_step h
  · intro s
    constructor
    · simp only [WebUsbWsdr.getTXPacketSize, COMPLEX_INT16_SIZE, WebUsbWsdr.HEADER_SIZE]
      omega
    · simp only [WebUsbWsdr.getRXPacketSize, WebUsbWsdr.EXTRA_RX_DATA]
      omega
  · intro s hs
    constructor
    · simp only [WebUsbLimeSdr.getRXPacketSize, hspp, WebUsbLimeSdr.PACKET_SIZE]
      have h1 : 1 ≤ (s + 1020 - 1) / 1020 := by omega
      omega
    · simp only [WebUsbLimeSdr.getTXPacketSize, hspp, WebUsbLimeSdr.PACKET_SIZE,
        WebUsbLimeSdr.HEADER_SIZE, COMPLEX_INT16_SIZE]
      split_ifs <;> omega

/-- Witness for C8 at concrete sample counts. -/
theorem packet_size_monotonicity_witness :
    WebUsbWsdr.getTXPacketSize 100 ≤ WebUsbWsdr.getTXPacketSize 200 ∧
    WebUsbWsdr.getRXPacketSize 100 ≤ WebUsbWsdr.getRXPacketSize 200 ∧
    WebUsbLimeSdr.getRXPacketSize 100 ≤ WebUsbLimeSdr.getRXPacketSize 2000 ∧
    WebUsbLimeSdr.getTXPacketSize 100 ≤ WebUsbLimeSdr.getTXPacketSize 2000 ∧
    16 ≤ WebUsbLimeSdr.getRXPacketSize 1 ∧ 16 ≤ WebUsbLimeSdr.getTXPacketSize 1 := by
  refine ⟨packet_size_monotonicity.1 100 200 (by decide),
    packet_size_monotonicity.2.1 100 200 (by decide) (by decide),
    packet_size_monotonicity.2.2.1 100 2000 (by decide),
    packet_size_monotonicity.2.2.2.1 100 2000 (by decide),
    (packet_size_monotonicity.2.2.2.2.2 1 (by decide)).1,
    (packet_size_monotonicity.2.2.2.2.2 1 (by decide)).2⟩

/-- C8 counterexample: variant A's RX size decreases past the mask
wrap-around (262016 to 262144 samples), and variant B's sizes at zero
samples are 0, below the 16-byte minimum claimed for all non-negative
counts. -/
theorem packet_size_counterexample :
    WebUsbWsdr.getRXPacketSize 262144 < WebUsbWsdr.getRXPacketSize 262016 ∧
    WebUsbLimeSdr.getRXPacketSize 0 = 0 ∧ WebUsbLimeSdr.getTXPacketSize 0 = 0 := by
  refine ⟨by decide, by decide, by decide⟩

end WebSdr

namespace WebSdr

/-! ## RX timestamp accounting (claim C1) -/

/-- C1 (corrected). On a successful decode, variant A (`WebUsbWsdr`)
advances the running timestamp by `overrun * samplesRecv`, stamps the
result with it, and then advances it by `samplesRecv`, exactly as the claim
states; variant B (`WebUsbLimeSdr`) instead returns the first sub-packet
header timestamp unchanged and records it as the session's last-received
timestamp, performing no overrun or sample-count arithmetic on a running
counter. -/
theorem decode_timestamp_update :
    (∀ (st : WebUsbWsdr.State) (data : ByteView) (samples : Nat) (opts : RXDecoderOptions)
      (st2 : WebUsbWsdr.State) (ret : RXBuffer),
      WebUsbWsdr.decodeRxData st data samples opts = Except.ok (st2, ret) →
        ret.timestamp = st.timestamp + ret.overrun * ret.samples ∧
        st2.timestamp = ret.timestamp + ret.samples ∧ ret.samples = samples) ∧
    (∀ (st : WebUsbLimeSdr.State) (data : ByteView) (samples : Nat) (opts : RXDecoderOptions)
      (st2 : WebUsbLimeSdr.State) (ret : RXBuffer),
      WebUsbLimeSdr.decodeRxData st data samples opts = Except.ok (st2, ret) →
        data.getU64 8 = Except.ok ret.timestamp ∧
        st2.lastRecvTimestamp = ret.timestamp ∧
        samples ≤ ret.samples) := by
  constructor
  · intro st data samples opts st2 ret h
    cases hm : opts.extra_meta <;>
      simp only [WebUsbWsdr.decodeRxData, hm, Bool.false_eq_true, if_true, if_false,
        ite_true, ite_false] at h
    · split at h
      · exact absurd h (by simp)
      rename_i hsz
      split at h
      · exact absurd h (by simp)
      rw [Except.ok.injEq, Prod.mk.injEq] at h
      obtain ⟨h1, h2⟩ := h
      subst h1 h2
      refine ⟨rfl, rfl, ?_⟩
      show (Int.tdiv _ 4).toNat = samples
      rw [← not_not.mp hsz, Int.toNat_natCast]
    · split at h
      · exact absurd h (by simp)
      rename_i hsz
      split at h
      · exact absurd h (by simp)
      split at h
      · exact absurd h (by simp)
      rw [Except.ok.injEq, Prod.mk.injEq] at h
      obtain ⟨h1, h2⟩ := h
      subst h1 h2
      refine ⟨rfl, rfl, ?_⟩
      show (Int.tdiv _ 4).toNat = samples
      rw [← not_not.mp hsz, Int.toNat_natCast]
  · intro st data samples opts st2 ret h
    simp only [WebUsbLimeSdr.decodeRxData] at h
    split at h
    · exact absurd h (by simp)
    rename_i hsz
    split at h
    · exact absurd h (by simp)
    rename_i ts hts
    rw [Except.ok.injEq, Prod.mk.injEq] at h
    obtain ⟨h1, h2⟩ := h
    subst h1 h2
    exact ⟨hts, rfl, by dsimp only; omega⟩

/-- Witness for C1: concrete decodes by both variants. -/
theorem decode_timestamp_update_witness :
    WebUsbWsdr.decodeRxData ⟨10⟩ wsdrCexView 1 {} = Except.ok (⟨13⟩, wsdrCexRet) ∧
    wsdrCexRet.timestamp = 10 + wsdrCexRet.overrun * wsdrCexRet.samples ∧
    WebUsbLimeSdr.decodeRxData ⟨0⟩ limeSmallView 4 {} = Except.ok (⟨5000⟩, limeSmallRet) ∧
    limeSmallView.getU64 8 = Except.ok limeSmallRet.timestamp := by
  refine ⟨rfl, (decode_timestamp_update.1 ⟨10⟩ wsdrCexView 1 {} ⟨13⟩ wsdrCexRet rfl).1, rfl,
    (decode_timestamp_update.2 ⟨0⟩ limeSmallView 4 {} ⟨5000⟩ limeSmallRet rfl).1⟩

/-- C1 counterexample: a variant-B packet with header timestamp 5000
decoded in a session whose recorded timestamp is 0 returns timestamp 5000,
not `0 + overrun * samples = 0`, and the stored timestamp becomes 5000,
not `0 + overrun * samples + samples = 1020`. -/
theorem lime_decode_timestamp_counterexample :
    (WebUsbLimeSdr.decodeRxData ⟨0⟩ limeCexView 1020 {}).map
        (fun p => (p.1.lastRecvTimestamp, p.2.timestamp, p.2.overrun, p.2.samples)) =
      Except.ok (5000, 5000, 0, 1020) ∧
    (5000 : Nat) ≠ 0 + 0 * 1020 ∧ (5000 : Nat) ≠ 0 + 0 * 1020 + 1020 := by
  exact ⟨rfl, by decide, by decide⟩

/-! ## TX backpressure (claim C3) -/

namespace WebUsb

lemma txStep_cnt_le (s : TxState) (e : TxEvent) (h : s.sendDataReqCnt ≤ 128) :
    (txStep s e).1.sendDataReqCnt ≤ 128 := by
  cases e <;> simp only [txStep, txFinish, MAX_SEND_DATA_REQUEST] <;>
    split_ifs <;> simp_all <;> omega

lemma txRun_cnt_le (evs : List TxEvent) (s : TxState) (h : s.sendDataReqCnt ≤ 128) :
    (txRun s evs).sendDataReqCnt ≤ 128 := by
  induction evs generalizing s with
  | nil => exact h
  | cons e es ih => exact ih _ (txStep_cnt_le s e h)

end WebUsb

/-- C3 (confirmed). The outstanding-TX counter never exceeds
`MAX_SEND_DATA_REQUEST = 128` along any event sequence; a non-droppable
submission arriving at capacity suspends (counter unchanged, one more
blocked caller) instead of proceeding; completion and failure of a
transfer have identical counter effect, each frees exactly one unit of
capacity (consumed immediately by a woken waiter when one is blocked); and
a blocked submission can only be released by a completion or failure
event. -/
theorem tx_backpressure_bound :
    (∀ (s : WebUsb.TxState) (evs : List WebUsb.TxEvent),
      s.sendDataReqCnt ≤ WebUsb.MAX_SEND_DATA_REQUEST →
      (WebUsb.txRun s evs).sendDataReqCnt ≤ WebUsb.MAX_SEND_DATA_REQUEST) ∧
    (∀ s : WebUsb.TxState, s.sendDataReqCnt = WebUsb.MAX_SEND_DATA_REQUEST →
      WebUsb.txStep s (WebUsb.TxEvent.submit false) =
        ({ s with blocked := s.blocked + 1 }, WebUsb.TxOutcome.blockedOutcome)) ∧
    (∀ s : WebUsb.TxState,
      WebUsb.txStep s WebUsb.TxEvent.transferComplete =
        WebUsb.txStep s WebUsb.TxEvent.transferFail) ∧
    (∀ s : WebUsb.TxState, 0 < s.sendDataReqCnt →
      (WebUsb.txFinish s).1.sendDataReqCnt + (WebUsb.txFinish s).1.blocked + 1 =
        s.sendDataReqCnt + s.blocked) ∧
    (∀ (s : WebUsb.TxState) (e : WebUsb.TxEvent),
      (WebUsb.txStep s e).1.blocked < s.blocked →
      e = WebUsb.TxEvent.transferComplete ∨ e = WebUsb.TxEvent.transferFail) := by
  refine ⟨fun s evs h => WebUsb.txRun_cnt_le evs s h, ?_, ?_, ?_, ?_⟩
  · intro s h
    simp [WebUsb.txStep, WebUsb.MAX_SEND_DATA_REQUEST, h]
  · intro s
    rfl
  · intro s h
    simp only [WebUsb.txFinish]
    split_ifs <;> simp_all <;> omega
  · intro s e h
    cases e
    · simp only [WebUsb.txStep] at h
      split_ifs at h <;> simp_all
    · exact Or.inl rfl
    · exact Or.inr rfl

/-- Witness for C3 at concrete states: 130 guarded submissions from an
idle session stay within the bound, and a blocked submission at capacity. -/
theorem tx_backpressure_bound_witness :
    (WebUsb.txRun ⟨0, 0⟩ (List.replicate 130 (WebUsb.TxEvent.submit false))).sendDataReqCnt ≤
      WebUsb.MAX_SEND_DATA_REQUEST ∧
    WebUsb.txStep ⟨128, 5⟩ (WebUsb.TxEvent.submit false) =
      (⟨128, 6⟩, WebUsb.TxOutcome.blockedOutcome) ∧
    (WebUsb.txFinish ⟨17, 0⟩).1.sendDataReqCnt + (WebUsb.txFinish ⟨17, 0⟩).1.blocked + 1 =
      17 + 0 := by
  refine ⟨tx_backpressure_bound.1 ⟨0, 0⟩ _ (by decide),
    tx_backpressure_bound.2.1 ⟨128, 5⟩ rfl,
    tx_backpressure_bound.2.2.2.1 ⟨17, 0⟩ (by decide)⟩

end WebSdr

namespace WebSdr

/-! ## Debounced setParameter (claim C4) -/

namespace ControlWebUsb

lemma runSetParameter_dropAll {α : Type} (t0 t1 : Nat) (v1 : α) (cs : List (Nat × α))
    (hcs : ∀ c ∈ cs, c.1 ≤ t0 + 250 ∧ c.1 < t1 + 250) :
    runSetParameter ⟨some (t1 + 250, v1), t0⟩ cs = [(t1 + 250, v1)] := by
  induction cs with
  | nil => rfl
  | cons c rest ih =>
    obtain ⟨h1, h2⟩ := hcs c (List.mem_cons_self c rest)
    have hrest := fun d hd => hcs d (List.mem_cons_of_mem c hd)
    obtain ⟨t, a⟩ := c
    simp only [runSetParameter, fireDue, setParameterCall, SET_PARAMETER_TIMEOUT]
    rw [if_neg (by simp at h2 ⊢; omega), if_neg (by simp at h1 ⊢; omega)]
    simpa using ih hrest

end ControlWebUsb

/-- C4 (corrected). Within one debounce window the timer is created by the
first non-immediate call and fires 250 ms later carrying that call's
arguments: every further `now = false` call inside the window is dropped,
so the first pending value wins, not the last. (The claim's "last pending
value wins" fails, and the immediate path can additionally send while a
timer is pending; see the counterexample.) -/
theorem setParameter_debounce_behavior {α : Type} (t0 t1 : Nat) (v0 v1 : α)
    (cs : List (Nat × α)) (h0 : 250 < t0) (_h01 : t0 ≤ t1) (h1 : t1 - t0 ≤ 250)
    (hcs : ∀ c ∈ cs, c.1 ≤ t0 + 250 ∧ c.1 < t1 + 250) :
    ControlWebUsb.runSetParameter ⟨none, 0⟩ ((t0, v0) :: (t1, v1) :: cs) =
      [(t0, v0), (t1 + 250, v1)] := by
  simp only [ControlWebUsb.runSetParameter, ControlWebUsb.fireDue,
    ControlWebUsb.setParameterCall, ControlWebUsb.SET_PARAMETER_TIMEOUT]
  rw [if_pos (by omega)]
  simp only [ControlWebUsb.runSetParameter, ControlWebUsb.fireDue,
    ControlWebUsb.setParameterCall, ControlWebUsb.SET_PARAMETER_TIMEOUT]
  rw [if_neg (by omega)]
  simpa using ControlWebUsb.runSetParameter_dropAll t0 t1 v1 cs hcs

/-- Witness for C4: a concrete burst of three calls in one window. -/
theorem setParameter_debounce_behavior_witness :
    ControlWebUsb.runSetParameter (α := Nat) ⟨none, 0⟩ [(1000, 1), (1010, 2), (1020, 3)] =
      [(1000, 1), (1260, 2)] := by
  exact setParameter_debounce_behavior 1000 1010 1 2 [(1020, 3)] (by decide) (by decide)
    (by decide) (by intro c hc; simp at hc; subst hc; exact ⟨by decide, by decide⟩)

/-- C4 counterexample: (a) with calls at 1000, 1010, 1020 ms the deferred
command carries the value of the 1010 ms call, not the last value supplied
in the window; (b) with calls at 1000, 1100, 1260 ms the immediate path
fires at 1260 while a timer is pending, so two wire commands are sent 90 ms
apart, inside one 250 ms window, and the later one carries the older
value. -/
theorem setParameter_debounce_counterexample :
    ControlWebUsb.runSetParameter (α := Nat) ⟨none, 0⟩ [(1000, 1), (1010, 2), (1020, 3)] =
      [(1000, 1), (1260, 2)] ∧
    ControlWebUsb.runSetParameter (α := Nat) ⟨none, 0⟩ [(1000, 1), (1100, 2), (1260, 3)] =
      [(1000, 1), (1260, 3), (1350, 2)] ∧
    (2 : Nat) ≠ 3 ∧ 1350 - 1260 < 250 := by
  refine ⟨by decide, by decide, by decide, by decide⟩

/-! ## Header validation (claim C5) -/

/-- C5 (corrected). Variant B's `_fillHeader` throws exactly when the
destination region from the offset is shorter than the 16-byte header or
the sample count is not a multiple of 4. Variant A's `_fillHeader` throws
in exactly the claimed cases (region shorter than 16 bytes, sample count
outside [128, 8192]) *and additionally* whenever the offset or the
remaining buffer length is not a multiple of 8, because constructing the
`Uint16Array`/`BigUint64Array` views over `(buf, offset)` throws a
`RangeError` for unaligned values. All throws happen before any header
byte is written (the functions return the bytes only on success). -/
theorem fillHeader_error_conditions :
    (∀ (bufLen offset : Nat) (discard : Bool) (ts samples : Nat),
      exceptIsError (WebUsbWsdr.fillHeader bufLen offset discard ts samples) = true ↔
        ((bufLen : Int) - offset < 16 ∨ samples < 128 ∨ 8192 < samples ∨
          offset % 8 ≠ 0 ∨ (bufLen - offset) % 8 ≠ 0)) ∧
    (∀ (bufLen offset : Nat) (discard : Bool) (ts samples : Nat),
      exceptIsError (WebUsbLimeSdr.fillHeader bufLen offset discard ts samples) = true ↔
        ((bufLen : Int) - offset < 16 ∨ samples % 4 ≠ 0)) := by
  constructor
  · intro bufLen offset discard ts samples
    simp only [WebUsbWsdr.fillHeader, WebUsbWsdr.HEADER_SIZE, WebUsbWsdr.MIN_SAMPLES_IN_PKT,
      WebUsbWsdr.MAX_SAMPLES_IN_PKT]
    split_ifs <;> simp_all [exceptIsError] <;> omega
  · intro bufLen offset discard ts samples
    simp only [WebUsbLimeSdr.fillHeader, WebUsbLimeSdr.HEADER_SIZE]
    split_ifs <;> simp_all [exceptIsError]

/-- Witness for C5: concrete header writes on both sides of each
condition. -/
theorem fillHeader_error_conditions_witness :
    exceptIsError (WebUsbWsdr.fillHeader 32 0 false 7 64) = true ∧
    exceptIsError (WebUsbWsdr.fillHeader 32 0 false 7 128) = false ∧
    exceptIsError (WebUsbLimeSdr.fillHeader 20 0 false 7 3) = true ∧
    exceptIsError (WebUsbLimeSdr.fillHeader 20 0 false 7 8) = false := by
  refine ⟨(fillHeader_error_conditions.1 32 0 false 7 64).mpr (by decide), ?_, ?_, ?_⟩
  · cases hko : exceptIsError (WebUsbWsdr.fillHeader 32 0 false 7 128)
    · rfl
    · exact absurd ((fillHeader_error_conditions.1 32 0 false 7 128).mp hko) (by decide)
  · exact (fillHeader_error_conditions.2 20 0 false 7 3).mpr (by decide)
  · cases hko : exceptIsError (WebUsbLimeSdr.fillHeader 20 0 false 7 8)
    · rfl
    · exact absurd ((fillHeader_error_conditions.2 20 0 false 7 8).mp hko) (by decide)

/-- C5 counterexample: variant A throws at offset 4 in a 36-byte buffer
(region of 32 bytes, sample count 128 in range), violating the claimed
"throws exactly when the precondition is violated": the `BigUint64Array`
view construction requires 8-byte alignment. -/
theorem fillHeader_alignment_counterexample :
    exceptIsError (WebUsbWsdr.fillHeader 36 4 false 0 128) = true ∧
    ¬((36 : Int) - 4 < 16) ∧ ¬((128 : Nat) < 128 ∨ 8192 < (128 : Nat)) := by
  refine ⟨by decide, by decide, by decide⟩

/-! ## Worker façade guard (claim C9) -/

/-- C9 (corrected). Every remote-mode operation except `open` fails
immediately with the "worker is not running" error when no worker instance
exists (posting nothing, so nothing is queued); `open`, however, does not
fail: with no worker instance it starts a fresh worker (posting the `START`
handshake) and then posts its `OPEN` request to the new worker. The guard
tests the presence of the worker instance, not completion of the
handshake. -/
theorem worker_guard_behavior :
    (∀ op : WebUsbWorkerManager.MgrOp, op.isOpen = false →
      WebUsbWorkerManager.mgrCall op ⟨false⟩ =
        (⟨false⟩, Except.error WebUsbWorkerManager.workerNotRunning)) ∧
    (∀ vid pid : Nat,
      WebUsbWorkerManager.mgrCall
          (WebUsbWorkerManager.MgrOp.openOp (some vid) (some pid)) ⟨false⟩ =
        (⟨true⟩, Except.ok [WebUsbWorkerManager.WorkerMsgType.START,
          WebUsbWorkerManager.WorkerMsgType.OPEN])) := by
  constructor
  · intro op h
    cases op <;> first | rfl | simp [WebUsbWorkerManager.MgrOp.isOpen] at h
  · intro vid pid
    rfl

/-- Witness for C9: a `close` call with no worker fails fast, an `open`
call starts a worker. -/
theorem worker_guard_behavior_witness :
    WebUsbWorkerManager.mgrCall (WebUsbWorkerManager.MgrOp.close 3) ⟨false⟩ =
      (⟨false⟩, Except.error WebUsbWorkerManager.workerNotRunning) ∧
    WebUsbWorkerManager.mgrCall
        (WebUsbWorkerManager.MgrOp.openOp (some 0x3727) (some 0x1011)) ⟨false⟩ =
      (⟨true⟩, Except.ok [WebUsbWorkerManager.WorkerMsgType.START,
        WebUsbWorkerManager.WorkerMsgType.OPEN]) := by
  exact ⟨worker_guard_behavior.1 (WebUsbWorkerManager.MgrOp.close 3) rfl,
    worker_guard_behavior.2 0x3727 0x1011⟩

/-- C9 counterexample: `open` invoked with no worker running does not fail
with the "not running" error, contradicting the claim that every façade
operation does; it restarts the worker and proceeds. -/
theorem worker_open_counterexample :
    WebUsbWorkerManager.mgrCall
        (WebUsbWorkerManager.MgrOp.openOp (some 0x2e8a) (some 0x10)) ⟨false⟩ =
      (⟨true⟩, Except.ok [WebUsbWorkerManager.WorkerMsgType.START,
        WebUsbWorkerManager.WorkerMsgType.OPEN]) ∧
    (Except.ok [WebUsbWorkerManager.WorkerMsgType.START,
        WebUsbWorkerManager.WorkerMsgType.OPEN] ≠
      (Except.error WebUsbWorkerManager.workerNotRunning :
        Except String (List WebUsbWorkerManager.WorkerMsgType))) := by
  refine ⟨rfl, by simp⟩

end WebSdr

namespace WebSdr

/-! ## Circular buffer lemmas (toward claims C10 and C2) -/

namespace CircBuf

variable {α : Type}

lemma size_pos_of_not_empty (q : CircBuf α) (h : q.WF) (he : q.isEmpty = false) :
    0 < q.size := by
  obtain ⟨hl, hh, ht⟩ := h
  by_cases hf : q.full
  · simp only [size, hf, if_true]
    omega
  · have hne : q.head ≠ q.tail := by
      intro hEq
      simp [isEmpty, hEq, hf] at he
    simp only [size, hf, if_false]
    split_ifs <;> omega

lemma size_zero_of_empty (q : CircBuf α) (h : q.WF) (he : q.isEmpty = true) :
    q.size = 0 := by
  obtain ⟨hl, hh, ht⟩ := h
  simp only [isEmpty, Bool.and_eq_true, beq_iff_eq, Bool.not_eq_true'] at he
  simp [size, he.1, he.2]

lemma pop_front_one (q : CircBuf α) :
    q.pop_front 1 =
      { q with
        head := (q.head + 1) % q.len
        tail := if q.size ≤ 1 then (q.head + 1) % q.len else q.tail
        full := false } := by
  simp [pop_front]

lemma pop_front_buf (q : CircBuf α) (c : Nat) : (q.pop_front c).buf = q.buf := by
  simp only [pop_front]; split_ifs <;> rfl

lemma pop_back_buf (q : CircBuf α) (c : Nat) : (q.pop_back c).buf = q.buf := by
  simp only [pop_back]; split_ifs <;> rfl

lemma wf_pop_front (q : CircBuf α) (h : q.WF) (cnt : Nat) : (q.pop_front cnt).WF := by
  obtain ⟨hl, hh, ht⟩ := h
  have hm : (q.head + cnt) % q.len < q.len := Nat.mod_lt _ hl
  simp only [pop_front]
  split_ifs <;> exact ⟨hl, by first | omega | (dsimp only; omega),
    by first | omega | (dsimp only; omega)⟩

lemma wf_push_back (q : CircBuf α) (h : q.WF) (v : α) : (q.push_back v).WF := by
  by_cases hf : q.full = true
  · obtain ⟨hl, hh, ht⟩ := wf_pop_front q h 1
    simp only [push_back, if_pos hf]
    exact ⟨hl, hh, Nat.mod_lt _ hl⟩
  · obtain ⟨hl, hh, ht⟩ := h
    simp only [push_back, if_neg hf]
    exact ⟨hl, hh, Nat.mod_lt _ hl⟩

lemma coh_applyOp (q : CircBuf α) (op : Op α) (h : q.full = true → q.head = q.tail) :
    (q.applyOp op).full = true → (q.applyOp op).head = (q.applyOp op).tail := by
  cases op <;> intro hf
  · simp [applyOp, clear] at hf
  · simp only [applyOp, push_front] at hf ⊢
    exact eq_of_beq hf
  · simp only [applyOp, push_back] at hf ⊢
    exact eq_of_beq hf
  · simp only [applyOp, pop_front] at hf ⊢
    split_ifs at hf ⊢ <;> first | exact h hf | simp at hf
  · simp only [applyOp, pop_back] at hf ⊢
    split_ifs at hf ⊢ <;> first | exact h hf | simp at hf
  · simp only [applyOp, alloc_front] at hf ⊢
    split_ifs at hf ⊢ <;> first | exact h hf | exact eq_of_beq hf
  · simp only [applyOp, alloc_back] at hf ⊢
    split_ifs at hf ⊢ <;> first | exact h hf | exact eq_of_beq hf

lemma size_pop_front_one (q : CircBuf α) (h : q.WF)
    (hco : q.full = true → q.head = q.tail) (he : q.isEmpty = false) :
    (q.pop_front 1).size = q.size - 1 := by
  have hpos := size_pos_of_not_empty q h he
  obtain ⟨hl, hh, ht⟩ := h
  rw [pop_front_one]
  by_cases hs1 : q.size ≤ 1
  · simp only [if_pos hs1]
    simp only [size] at hs1 hpos ⊢
    split_ifs at hs1 hpos ⊢ <;> simp_all <;> omega
  · simp only [if_neg hs1]
    rcases eq_or_lt_of_le (by omega : q.head + 1 ≤ q.len) with hc | hc
    · have hmod : (q.head + 1) % q.len = 0 := by rw [hc, Nat.mod_self]
      by_cases hf : q.full
      · have hct := hco hf
        simp only [size, hmod, hf, if_true] at hs1 ⊢
        split_ifs at hs1 ⊢ <;> simp_all <;> omega
      · simp only [size, hmod, hf, if_false] at hs1 ⊢
        split_ifs at hs1 ⊢ <;> simp_all <;> omega
    · have hmod : (q.head + 1) % q.len = q.head + 1 := Nat.mod_eq_of_lt hc
      by_cases hf : q.full
      · have hct := hco hf
        simp only [size, hmod, hf, if_true] at hs1 ⊢
        split_ifs at hs1 ⊢ <;> simp_all <;> omega
      · simp only [size, hmod, hf, if_false] at hs1 ⊢
        split_ifs at hs1 ⊢ <;> simp_all <;> omega

lemma contents_cons (q : CircBuf α) (h : q.WF)
    (hco : q.full = true → q.head = q.tail) (he : q.isEmpty = false) :
    q.contents = q.buf q.head :: (q.pop_front 1).contents := by
  have hpos := size_pos_of_not_empty q h he
  have hsz := size_pop_front_one q h hco he
  obtain ⟨hl, hh, ht⟩ := h
  have hq1 : (q.pop_front 1).buf = q.buf ∧ (q.pop_front 1).head = (q.head + 1) % q.len ∧
      (q.pop_front 1).len = q.len := by
    rw [pop_front_one]
    exact ⟨rfl, rfl, rfl⟩
  obtain ⟨hb, hhd, hln⟩ := hq1
  rw [contents, contents, hb, hhd, hln, hsz]
  rw [show q.size = (q.size - 1) + 1 by omega, List.range_succ_eq_map]
  rw [List.map_cons, List.map_map]
  congr 1
  · rw [Nat.add_zero, Nat.mod_eq_of_lt hh]
  · apply List.map_congr_left
    intro i _
    simp only [Function.comp_apply]
    rw [Nat.mod_add_mod]
    congr 2
    omega

end CircBuf

end WebSdr

namespace WebSdr
namespace CircBuf

variable {α : Type}

end CircBuf
end WebSdr

namespace WebSdr
namespace WebUsb

variable {α : Type}

lemma pop_front_one_full_false (q : CircBuf α) : (q.pop_front 1).full = false := by
  rw [CircBuf.pop_front_one]

lemma singleFlightFrom_cellEvents (native : α → Option Int) (o : Option α)
    (tr : List (CmdEvent α)) :
    singleFlightFrom 0 (cellEvents native o ++ tr) = singleFlightFrom 0 tr := by
  cases o with
  | none => rfl
  | some r => cases hn : native r <;> simp [cellEvents, sendCommandEvents, hn, singleFlightFrom]

lemma singleFlight_flatMap (native : α → Option Int) (l : List (Option α)) :
    singleFlight (l.flatMap (cellEvents native)) = true := by
  induction l with
  | nil => rfl
  | cons o rest ih =>
    rw [List.flatMap_cons, singleFlight, singleFlightFrom_cellEvents]
    exact ih

end WebUsb
end WebSdr

namespace WebSdr

namespace WebUsb

variable {α : Type}

lemma sendCommandEvents_eq (native : α → Option Int) (r : α) :
    sendCommandEvents native r =
      [CmdEvent.nativeStart r, CmdEvent.replyObserved r, settleEvent native r] := by
  cases hn : native r <;> simp [sendCommandEvents, settleEvent, hn]

lemma skipHoles_wf (fuel : Nat) : ∀ q : CircBuf α, q.WF → (skipHoles fuel q).1.WF := by
  induction fuel with
  | zero => intro q h; exact h
  | succ n ih =>
    intro q h
    rw [skipHoles]
    by_cases he : q.isEmpty
    · rw [if_pos he]
      exact h
    · rw [if_neg he]
      cases hf : q.front with
      | some r => exact h
      | none => exact ih (q.pop_front 1) (CircBuf.wf_pop_front q h 1)

lemma skipHoles_coh (fuel : Nat) : ∀ q : CircBuf α,
    (q.full = true → q.head = q.tail) →
    ((skipHoles fuel q).1.full = true →
      (skipHoles fuel q).1.head = (skipHoles fuel q).1.tail) := by
  induction fuel with
  | zero => intro q h; exact h
  | succ n ih =>
    intro q h
    rw [skipHoles]
    by_cases he : q.isEmpty
    · rw [if_pos he]
      exact h
    · rw [if_neg he]
      cases hf : q.front with
      | some r => exact h
      | none =>
        apply ih
        intro hx
        rw [pop_front_one_full_false] at hx
        exact absurd hx (by simp)

lemma skipHoles_size (fuel : Nat) : ∀ q : CircBuf α, q.WF →
    (q.full = true → q.head = q.tail) →
    (skipHoles fuel q).1.size ≤ q.size := by
  induction fuel with
  | zero => intro q _ _; exact le_rfl
  | succ n ih =>
    intro q hwf hco
    rw [skipHoles]
    by_cases he : q.isEmpty
    · rw [if_pos he]
    · rw [if_neg he]
      cases hf : q.front with
      | some r => exact le_rfl
      | none =>
        have he' : q.isEmpty = false := by simpa using he
        have hco1 : (q.pop_front 1).full = true →
            (q.pop_front 1).head = (q.pop_front 1).tail := by
          rw [pop_front_one_full_false]
          intro hx
          exact absurd hx (by simp)
        have h1 := ih (q.pop_front 1) (CircBuf.wf_pop_front q hwf 1) hco1
        have hsz := CircBuf.size_pop_front_one q hwf hco he'
        show (skipHoles n (q.pop_front 1)).1.size ≤ q.size
        omega

lemma skipHoles_flatMap (native : α → Option Int) (fuel : Nat) : ∀ q : CircBuf α,
    q.WF → (q.full = true → q.head = q.tail) → q.size ≤ fuel →
    (skipHoles fuel q).1.contents.flatMap (cellEvents native) =
      q.contents.flatMap (cellEvents native) := by
  induction fuel with
  | zero => intro q _ _ _; rfl
  | succ n ih =>
    intro q hwf hco hsz
    rw [skipHoles]
    by_cases he : q.isEmpty
    · rw [if_pos he]
    · rw [if_neg he]
      cases hf : q.front with
      | some r => rfl
      | none =>
        have he' : q.isEmpty = false := by simpa using he
        have hco1 : (q.pop_front 1).full = true →
            (q.pop_front 1).head = (q.pop_front 1).tail := by
          rw [pop_front_one_full_false]
          intro hx
          exact absurd hx (by simp)
        have hsz1 := CircBuf.size_pop_front_one q hwf hco he'
        have hpos := CircBuf.size_pos_of_not_empty q hwf he'
        rw [ih (q.pop_front 1) (CircBuf.wf_pop_front q hwf 1) hco1 (by omega)]
        rw [CircBuf.contents_cons q hwf hco he', List.flatMap_cons]
        rw [show q.buf q.head = (none : Option α) from hf]
        rfl

lemma skipHoles_none (native : α → Option Int) (fuel : Nat) : ∀ q : CircBuf α,
    q.WF → (q.full = true → q.head = q.tail) → q.size ≤ fuel →
    (skipHoles fuel q).2 = none →
    q.contents.flatMap (cellEvents native) = [] := by
  induction fuel with
  | zero =>
    intro q hwf hco hsz _
    have h0 : q.size = 0 := by omega
    simp [CircBuf.contents, h0]
  | succ n ih =>
    intro q hwf hco hsz hres
    rw [skipHoles] at hres
    by_cases he : q.isEmpty
    · have h0 := CircBuf.size_zero_of_empty q hwf he
      simp [CircBuf.contents, h0]
    · rw [if_neg he] at hres
      have he' : q.isEmpty = false := by simpa using he
      cases hf : q.front with
      | some r =>
        rw [hf] at hres
        simp at hres
      | none =>
        rw [hf] at hres
        have hco1 : (q.pop_front 1).full = true →
            (q.pop_front 1).head = (q.pop_front 1).tail := by
          rw [pop_front_one_full_false]
          intro hx
          exact absurd hx (by simp)
        have hsz1 := CircBuf.size_pop_front_one q hwf hco he'
        have hpos := CircBuf.size_pos_of_not_empty q hwf he'
        have hrest := ih (q.pop_front 1) (CircBuf.wf_pop_front q hwf 1) hco1 (by omega) hres
        rw [CircBuf.contents_cons q hwf hco he', List.flatMap_cons]
        rw [show q.buf q.head = (none : Option α) from hf, hrest]
        rfl

lemma skipHoles_some (fuel : Nat) : ∀ (q : CircBuf α) (r : α),
    (skipHoles fuel q).2 = some r →
    (skipHoles fuel q).1.front = some r ∧ (skipHoles fuel q).1.isEmpty = false := by
  induction fuel with
  | zero =>
    intro q r h
    exact absurd h (by simp [skipHoles])
  | succ n ih =>
    intro q r h
    rw [skipHoles] at h ⊢
    by_cases he : q.isEmpty
    · rw [if_pos he] at h
      exact absurd h (by simp)
    · rw [if_neg he] at h ⊢
      cases hf : q.front with
      | some r' =>
        rw [hf] at h
        have hrr : r' = r := by simpa using h
        subst hrr
        exact ⟨by first | exact hf | rfl, by simpa using he⟩
      | none =>
        rw [hf] at h
        exact ih (q.pop_front 1) r h


lemma poolRun_cons (native : α → Option Int) (s : PoolSt α) (e : PoolEv α)
    (es : List (PoolEv α)) :
    poolRun native s (e :: es) =
      ((poolRun native (poolStep native s e).1 es).1,
       (poolStep native s e).2 ++ (poolRun native (poolStep native s e).1 es).2) := rfl

lemma poolRun_noTask (native : α → Option Int) (n : Nat) : ∀ s : PoolSt α,
    s.tasks.getD 0 none = none →
    poolRun native s (seqSched α n) = (s, []) := by
  induction n with
  | zero => intro s _; rfl
  | succ m ih =>
    intro s h
    have h' : s.tasks[0]?.getD none = none := by
      simpa [List.getD_eq_getElem?_getD] using h
    have h1 : poolStep native s (PoolEv.nativeReply 0) = (s, []) := by
      simp [poolStep, h, h']
    have h2 : poolStep native s (PoolEv.taskResume 0) = (s, []) := by
      simp [poolStep, h, h']
    rw [seqSched, poolRun_cons, h1, poolRun_cons, h2, ih s h]
    rfl

lemma seqRun_trace (native : α → Option Int) (fuel : Nat) : ∀ (q : CircBuf α) (r : α),
    q.WF → (q.full = true → q.head = q.tail) → q.isEmpty = false →
    q.front = some r → q.size ≤ fuel →
    (poolRun native ⟨true, q, [some (TaskSt.awaitingNative r)]⟩ (seqSched α fuel)).2 =
      (q.contents.flatMap (cellEvents native)).drop 1 := by
  induction fuel with
  | zero =>
    intro q r hwf hco he hf hsz
    have := CircBuf.size_pos_of_not_empty q hwf he
    omega
  | succ n ih =>
    intro q r hwf hco he hf hsz
    have hpos := CircBuf.size_pos_of_not_empty q hwf he
    have hwf1 := CircBuf.wf_pop_front q hwf 1
    have hco1 : (q.pop_front 1).full = true →
        (q.pop_front 1).head = (q.pop_front 1).tail := by
      rw [pop_front_one_full_false]
      intro hx
      exact absurd hx (by simp)
    have hsz1 := CircBuf.size_pop_front_one q hwf hco he
    have hcc := CircBuf.contents_cons q hwf hco he
    have h1 : poolStep native ⟨true, q, [some (TaskSt.awaitingNative r)]⟩
        (PoolEv.nativeReply 0) =
        (⟨false, q, [some (TaskSt.pendingResume r)]⟩, [CmdEvent.replyObserved r]) := rfl
    rw [seqSched, poolRun_cons, h1, poolRun_cons]
    cases hsk : skipHoles (q.pop_front 1).size (q.pop_front 1) with
    | mk q' o =>
      have hfst : (skipHoles (q.pop_front 1).size (q.pop_front 1)).1 = q' := by rw [hsk]
      have hsnd : (skipHoles (q.pop_front 1).size (q.pop_front 1)).2 = o := by rw [hsk]
      cases o with
      | none =>
        have h2 : poolStep native ⟨false, q, [some (TaskSt.pendingResume r)]⟩
            (PoolEv.taskResume 0) = (⟨false, q', [none]⟩, [settleEvent native r]) := by
          simp only [poolStep, List.getD_cons_zero, List.set_cons_zero, hsk]
        rw [h2, poolRun_noTask native n ⟨false, q', [none]⟩ rfl]
        have hrest := skipHoles_none native _ _ hwf1 hco1 le_rfl hsnd
        rw [hcc, List.flatMap_cons, show q.buf q.head = some r from hf]
        rw [show cellEvents native (some r) = sendCommandEvents native r from rfl]
        rw [sendCommandEvents_eq, hrest]
        rfl
      | some r' =>
        have h2 : poolStep native ⟨false, q, [some (TaskSt.pendingResume r)]⟩
            (PoolEv.taskResume 0) =
            (⟨true, q', [some (TaskSt.awaitingNative r')]⟩,
             [settleEvent native r, CmdEvent.nativeStart r']) := by
          simp only [poolStep, List.getD_cons_zero, List.set_cons_zero, hsk]
        rw [h2]
        have hq'wf : q'.WF := hfst ▸ skipHoles_wf _ _ hwf1
        have hq'co : q'.full = true → q'.head = q'.tail :=
          hfst ▸ skipHoles_coh _ _ hco1
        have hq'size : q'.size ≤ (q.pop_front 1).size :=
          hfst ▸ skipHoles_size _ _ hwf1 hco1
        have hsome := skipHoles_some _ _ r' hsnd
        have hq'front : q'.front = some r' := hfst ▸ hsome.1
        have hq'he : q'.isEmpty = false := hfst ▸ hsome.2
        have hq'fm : q'.contents.flatMap (cellEvents native) =
            (q.pop_front 1).contents.flatMap (cellEvents native) :=
          hfst ▸ skipHoles_flatMap native _ _ hwf1 hco1 le_rfl
        rw [ih q' r' hq'wf hq'co hq'he hq'front (by omega)]
        have hq'cc := CircBuf.contents_cons q' hq'wf hq'co hq'he
        have htl : q'.contents.flatMap (cellEvents native) =
            CmdEvent.nativeStart r' :: (CmdEvent.replyObserved r' ::
              settleEvent native r' ::
                (q'.pop_front 1).contents.flatMap (cellEvents native)) := by
          rw [hq'cc, List.flatMap_cons, show q'.buf q'.head = some r' from hq'front]
          rw [show cellEvents native (some r') = sendCommandEvents native r' from rfl]
          rw [sendCommandEvents_eq]
          rfl
        rw [hcc, List.flatMap_cons, show q.buf q.head = some r from hf]
        rw [show cellEvents native (some r) = sendCommandEvents native r from rfl]
        rw [sendCommandEvents_eq, htl, ← hq'fm, htl]
        rfl


lemma submit_seq_trace (native : α → Option Int) (q : CircBuf α) (r : α)
    (hwf : q.WF) (hco : q.full = true → q.head = q.tail) :
    (poolRun native ⟨false, q, []⟩
        (PoolEv.submit r :: seqSched α (q.push_back r).size)).2 =
      (q.push_back r).contents.flatMap (cellEvents native) := by
  have hwf2 := CircBuf.wf_push_back q hwf r
  have hco2 := CircBuf.coh_applyOp q (CircBuf.Op.push_back r) hco
  rw [poolRun_cons]
  cases hsk : skipHoles (q.push_back r).size (q.push_back r) with
  | mk q' o =>
    have hfst : (skipHoles (q.push_back r).size (q.push_back r)).1 = q' := by rw [hsk]
    have hsnd : (skipHoles (q.push_back r).size (q.push_back r)).2 = o := by rw [hsk]
    cases o with
    | none =>
      have h1 : poolStep native ⟨false, q, []⟩ (PoolEv.submit r) =
          (⟨false, q', []⟩, []) := by
        simp [poolStep, hsk]
      rw [h1, poolRun_noTask native _ ⟨false, q', []⟩ rfl]
      have h0 := skipHoles_none native _ _ hwf2 hco2 le_rfl hsnd
      rw [h0]
      rfl
    | some r' =>
      have h1 : poolStep native ⟨false, q, []⟩ (PoolEv.submit r) =
          (⟨true, q', [some (TaskSt.awaitingNative r')]⟩, [CmdEvent.nativeStart r']) := by
        simp [poolStep, hsk]
      rw [h1]
      have hq'wf : q'.WF := hfst ▸ skipHoles_wf _ _ hwf2
      have hq'co : q'.full = true → q'.head = q'.tail := hfst ▸ skipHoles_coh _ _ hco2
      have hq'size : q'.size ≤ (q.push_back r).size := hfst ▸ skipHoles_size _ _ hwf2 hco2
      have hsome := skipHoles_some _ _ r' hsnd
      have hq'front : q'.front = some r' := hfst ▸ hsome.1
      have hq'he : q'.isEmpty = false := hfst ▸ hsome.2
      have hq'fm : q'.contents.flatMap (cellEvents native) =
          (q.push_back r).contents.flatMap (cellEvents native) :=
        hfst ▸ skipHoles_flatMap native _ _ hwf2 hco2 le_rfl
      rw [seqRun_trace native _ q' r' hq'wf hq'co hq'he hq'front hq'size]
      have hq'cc := CircBuf.contents_cons q' hq'wf hq'co hq'he
      have htl : q'.contents.flatMap (cellEvents native) =
          CmdEvent.nativeStart r' :: (CmdEvent.replyObserved r' ::
            settleEvent native r' ::
              (q'.pop_front 1).contents.flatMap (cellEvents native)) := by
        rw [hq'cc, List.flatMap_cons, show q'.buf q'.head = some r' from hq'front]
        rw [show cellEvents native (some r') = sendCommandEvents native r' from rfl]
        rw [sendCommandEvents_eq]
        rfl
      rw [← hq'fm, htl]
      rfl

lemma submit_reissues_front (native : α → Option Int) (q : CircBuf α)
    (tasks : List (Option (TaskSt α))) (r r' : α) (hwf : q.WF)
    (he : q.isEmpty = false) (hfull : q.full = false) (hf : q.front = some r) :
    poolStep native ⟨false, q, tasks⟩ (PoolEv.submit r') =
      (⟨true, q.push_back r', tasks ++ [some (TaskSt.awaitingNative r)]⟩,
       [CmdEvent.nativeStart r]) := by
  have hwf2 := CircBuf.wf_push_back q hwf r'
  have hne : (q.push_back r').isEmpty = false := by
    simp [CircBuf.push_back, CircBuf.isEmpty, hfull]
  have hht : ¬ q.head = q.tail := by
    intro hx
    rw [CircBuf.isEmpty] at he
    simp [hx, hfull] at he
  have hfr2 : (q.push_back r').front = some r := by
    simp only [CircBuf.push_back, hfull, Bool.false_eq_true, if_false, CircBuf.front]
    rw [if_neg hht]
    exact hf
  have hpos := CircBuf.size_pos_of_not_empty _ hwf2 hne
  obtain ⟨m, hm⟩ : ∃ m, (q.push_back r').size = m + 1 :=
    ⟨(q.push_back r').size - 1, by omega⟩
  have hsk : skipHoles (q.push_back r').size (q.push_back r') =
      (q.push_back r', some r) := by
    rw [hm, skipHoles, if_neg (by simp [hne]), hfr2]
  simp [poolStep, hsk]


end WebUsb

/-- C2: the `_sendCommandInProcess` guard and FIFO service of the command
queue, in the interleaved model. While the flag is set, `sendCommand` only
enqueues: the triggered `runCommandPool` returns at the guard and no native
call starts. Delivery of a native reply runs `_sendCommand`'s tail, which
clears the flag before the drain's continuation resumes. When each reply is
followed at once by that resumption (no `sendCommand` lands in between),
queued commands are served strictly in FIFO order — for two commands stored
back-to-back the second's native call starts only after the first's reply
is observed and its continuation settled — and the trace keeps at most one
native round trip in flight. The guard does not enforce this in general: a
`sendCommand` arriving in the reply-to-resume window finds the flag down
and the front request still unpopped, and starts a second drain whose first
native call re-issues that front request. -/
theorem command_pool_single_flight_fifo :
    (∀ (α : Type) (native : α → Option Int) (s : WebUsb.PoolSt α) (r : α),
      s.flag = true →
      WebUsb.poolStep native s (WebUsb.PoolEv.submit r) =
        ({ s with queue := s.queue.push_back r }, [])) ∧
    (∀ (α : Type) (native : α → Option Int) (s : WebUsb.PoolSt α) (t : Nat) (r : α),
      s.tasks.getD t none = some (WebUsb.TaskSt.awaitingNative r) →
      WebUsb.poolStep native s (WebUsb.PoolEv.nativeReply t) =
        (⟨false, s.queue, s.tasks.set t (some (WebUsb.TaskSt.pendingResume r))⟩,
         [WebUsb.CmdEvent.replyObserved r])) ∧
    (∀ (α : Type) (native : α → Option Int) (q : CircBuf α) (r : α),
      q.WF → (q.full = true → q.head = q.tail) →
      (WebUsb.poolRun native ⟨false, q, []⟩
          (WebUsb.PoolEv.submit r :: WebUsb.seqSched α (q.push_back r).size)).2 =
        (q.push_back r).contents.flatMap (WebUsb.cellEvents native)) ∧
    (∀ (α : Type) (native : α → Option Int) (q : CircBuf α) (r : α)
      (l1 l2 : List (Option α)) (r1 r2 : α),
      q.WF → (q.full = true → q.head = q.tail) →
      (q.push_back r).contents = l1 ++ some r1 :: some r2 :: l2 →
      (WebUsb.poolRun native ⟨false, q, []⟩
          (WebUsb.PoolEv.submit r :: WebUsb.seqSched α (q.push_back r).size)).2 =
        l1.flatMap (WebUsb.cellEvents native) ++
          (WebUsb.sendCommandEvents native r1 ++
            (WebUsb.sendCommandEvents native r2 ++
              l2.flatMap (WebUsb.cellEvents native)))) ∧
    (∀ (α : Type) (native : α → Option Int) (q : CircBuf α) (r : α),
      q.WF → (q.full = true → q.head = q.tail) →
      WebUsb.singleFlight
        ((WebUsb.poolRun native ⟨false, q, []⟩
          (WebUsb.PoolEv.submit r :: WebUsb.seqSched α (q.push_back r).size)).2) = true) ∧
    (∀ (α : Type) (native : α → Option Int) (q : CircBuf α)
      (tasks : List (Option (WebUsb.TaskSt α))) (r r' : α),
      q.WF → q.isEmpty = false → q.full = false → q.front = some r →
      WebUsb.poolStep native ⟨false, q, tasks⟩ (WebUsb.PoolEv.submit r') =
        (⟨true, q.push_back r', tasks ++ [some (WebUsb.TaskSt.awaitingNative r)]⟩,
         [WebUsb.CmdEvent.nativeStart r])) := by
  refine ⟨?_, ?_, ?_, ?_, ?_, ?_⟩
  · intro α native s r h
    simp [WebUsb.poolStep, h]
  · intro α native s t r h
    have h' : s.tasks[t]?.getD none = some (WebUsb.TaskSt.awaitingNative r) := by
      simpa [List.getD_eq_getElem?_getD] using h
    simp [WebUsb.poolStep, h, h']
  · intro α native q r hwf hco
    exact WebUsb.submit_seq_trace native q r hwf hco
  · intro α native q r l1 l2 r1 r2 hwf hco hct
    rw [WebUsb.submit_seq_trace native q r hwf hco, hct]
    simp [WebUsb.cellEvents]
  · intro α native q r hwf hco
    rw [WebUsb.submit_seq_trace native q r hwf hco]
    exact WebUsb.singleFlight_flatMap native (q.push_back r).contents
  · intro α native q tasks r r' hwf he hfull hf
    exact WebUsb.submit_reissues_front native q tasks r r' hwf he hfull hf

theorem command_pool_single_flight_fifo_witness :
    WebUsb.poolStep (fun _ : Nat => (none : Option Int))
        ⟨true, CircBuf.mk0 Nat 3, []⟩ (WebUsb.PoolEv.submit 7) =
      (⟨true, (CircBuf.mk0 Nat 3).push_back 7, []⟩, []) ∧
    WebUsb.poolStep (fun _ : Nat => (none : Option Int))
        ⟨true, CircBuf.mk0 Nat 3, [some (WebUsb.TaskSt.awaitingNative 7)]⟩
        (WebUsb.PoolEv.nativeReply 0) =
      (⟨false, CircBuf.mk0 Nat 3, [some (WebUsb.TaskSt.pendingResume 7)]⟩,
       [WebUsb.CmdEvent.replyObserved 7]) ∧
    (WebUsb.poolRun (fun _ : Nat => (none : Option Int))
        ⟨false, (CircBuf.mk0 Nat 100).push_back 1, []⟩
        (WebUsb.PoolEv.submit 2 ::
          WebUsb.seqSched Nat (((CircBuf.mk0 Nat 100).push_back 1).push_back 2).size)).2 =
      [].flatMap (WebUsb.cellEvents (fun _ : Nat => (none : Option Int))) ++
        (WebUsb.sendCommandEvents (fun _ : Nat => (none : Option Int)) 1 ++
          (WebUsb.sendCommandEvents (fun _ : Nat => (none : Option Int)) 2 ++
            [].flatMap (WebUsb.cellEvents (fun _ : Nat => (none : Option Int))))) ∧
    WebUsb.singleFlight
      ((WebUsb.poolRun (fun _ : Nat => (none : Option Int))
        ⟨false, (CircBuf.mk0 Nat 100).push_back 1, []⟩
        (WebUsb.PoolEv.submit 2 ::
          WebUsb.seqSched Nat
            (((CircBuf.mk0 Nat 100).push_back 1).push_back 2).size)).2) = true ∧
    WebUsb.poolStep (fun _ : Nat => (none : Option Int))
        ⟨false, (CircBuf.mk0 Nat 3).push_back 1,
          [some (WebUsb.TaskSt.pendingResume 1)]⟩ (WebUsb.PoolEv.submit 2) =
      (⟨true, ((CircBuf.mk0 Nat 3).push_back 1).push_back 2,
          [some (WebUsb.TaskSt.pendingResume 1),
           some (WebUsb.TaskSt.awaitingNative 1)]⟩,
       [WebUsb.CmdEvent.nativeStart 1]) := by
  refine ⟨command_pool_single_flight_fifo.1 Nat (fun _ => none) ⟨true, CircBuf.mk0 Nat 3, []⟩ 7 rfl,
    command_pool_single_flight_fifo.2.1 Nat (fun _ => none)
      ⟨true, CircBuf.mk0 Nat 3, [some (WebUsb.TaskSt.awaitingNative 7)]⟩ 0 7 rfl,
    command_pool_single_flight_fifo.2.2.2.1 Nat (fun _ => none) ((CircBuf.mk0 Nat 100).push_back 1) 2
      [] [] 1 2 (by refine ⟨by decide, by decide, by decide⟩) (by decide) (by decide),
    command_pool_single_flight_fifo.2.2.2.2.1 Nat (fun _ => none) ((CircBuf.mk0 Nat 100).push_back 1) 2
      (by refine ⟨by decide, by decide, by decide⟩) (by decide),
    command_pool_single_flight_fifo.2.2.2.2.2 Nat (fun _ => none) ((CircBuf.mk0 Nat 3).push_back 1)
      [some (WebUsb.TaskSt.pendingResume 1)] 1 2
      (by refine ⟨by decide, by decide, by decide⟩) (by decide) (by decide) (by decide)⟩

/-- A concrete interleaving refuting the original claim: submit request 1,
observe its native reply (the flag is now down, request 1 still unpopped),
submit request 2 in that window, then let the first drain resume. The
second drain re-issues request 1's native call; after the first drain moves
on to request 2, two native round trips are in flight and the trace fails
the single-flight check. -/
theorem command_pool_concurrent_drain_counterexample :
    (WebUsb.poolRun (fun _ : Nat => (none : Option Int))
        ⟨false, CircBuf.mk0 Nat 100, []⟩
        [WebUsb.PoolEv.submit 1, WebUsb.PoolEv.nativeReply 0,
         WebUsb.PoolEv.submit 2, WebUsb.PoolEv.taskResume 0]).2 =
      [WebUsb.CmdEvent.nativeStart 1, WebUsb.CmdEvent.replyObserved 1,
       WebUsb.CmdEvent.nativeStart 1, WebUsb.CmdEvent.resolved 1,
       WebUsb.CmdEvent.nativeStart 2] ∧
    WebUsb.singleFlight
      ((WebUsb.poolRun (fun _ : Nat => (none : Option Int))
        ⟨false, CircBuf.mk0 Nat 100, []⟩
        [WebUsb.PoolEv.submit 1, WebUsb.PoolEv.nativeReply 0,
         WebUsb.PoolEv.submit 2, WebUsb.PoolEv.taskResume 0]).2) = false ∧
    WebUsb.inFlightCount
      ((WebUsb.poolRun (fun _ : Nat => (none : Option Int))
        ⟨false, CircBuf.mk0 Nat 100, []⟩
        [WebUsb.PoolEv.submit 1, WebUsb.PoolEv.nativeReply 0,
         WebUsb.PoolEv.submit 2, WebUsb.PoolEv.taskResume 0]).1) = 2 := by
  refine ⟨by decide, by decide, by decide⟩


end WebSdr

namespace WebSdr
namespace WebUsbDeviceManager

lemma ffs_some_spec (devs : DevTable) (i : Nat) (h : firstFreeSlot devs = some i) :
    i < devs.length ∧ devs.getD i none = none ∧ ∀ j, j < i → devs.getD j none ≠ none := by
  induction devs generalizing i with
  | nil => simp [firstFreeSlot] at h
  | cons o rest ih =>
    cases o with
    | none =>
      simp only [firstFreeSlot, Option.some.injEq] at h
      subst h
      exact ⟨Nat.succ_pos _, rfl, fun j hj => absurd hj (Nat.not_lt_zero j)⟩
    | some d =>
      simp only [firstFreeSlot, Option.map_eq_some'] at h
      obtain ⟨k, hk, hki⟩ := h
      subst hki
      obtain ⟨h1, h2, h3⟩ := ih k hk
      refine ⟨by simpa using h1, by simpa [List.getD_cons_succ] using h2, ?_⟩
      intro j hj
      cases j with
      | zero => simp [List.getD]
      | succ j' =>
        have := h3 j' (by omega)
        simpa [List.getD_cons_succ] using this

lemma ffs_none_spec (devs : DevTable) (h : firstFreeSlot devs = none) :
    ∀ j, j < devs.length → devs.getD j none ≠ none := by
  induction devs with
  | nil => intro j hj; simp at hj
  | cons o rest ih =>
    cases o with
    | none => simp [firstFreeSlot] at h
    | some d =>
      simp only [firstFreeSlot, Option.map_eq_none'] at h
      intro j hj
      cases j with
      | zero => simp [List.getD]
      | succ j' =>
        have := ih h j' (by simpa using hj)
        simpa [List.getD_cons_succ] using this

lemma jsArraySet_getD (l : DevTable) (i : Nat) (v : Option Session) (j : Nat) :
    (jsArraySet l i v).getD j none = if j = i then v else l.getD j none := by
  have hlen : i < (l ++ List.replicate (i + 1 - l.length) none).length := by
    simp [List.length_append, List.length_replicate]
    omega
  by_cases hji : j = i
  · subst hji
    rw [if_pos rfl, jsArraySet, List.getD_eq_getElem?_getD,
      List.getElem?_set_self hlen]
    rfl
  · rw [if_neg hji, jsArraySet, List.getD_eq_getElem?_getD,
      List.getElem?_set_ne (fun he => hji he.symm)]
    by_cases hjl : j < l.length
    · rw [List.getElem?_append_left hjl, ← List.getD_eq_getElem?_getD]
    · rw [List.getElem?_append_right (le_of_not_lt hjl)]
      rw [List.getD_eq_default _ _ (le_of_not_lt hjl)]
      rw [List.getElem?_replicate]
      split <;> simp

lemma fdInv_openDevice (supported : Nat → Nat → Bool) (devs : DevTable)
    (vid pid : Nat) (h : FdInv devs) :
    FdInv (openDevice supported devs vid pid).1 := by
  simp only [openDevice]
  cases hf : findOpened devs vid pid with
  | some dev => exact h
  | none =>
    intro i d hd
    simp only at hd
    rw [jsArraySet_getD] at hd
    by_cases hi : i = (firstFreeSlot devs).getD 0
    · rw [if_pos hi] at hd
      cases hs : supported vid pid
      · rw [hs, if_neg (by simp)] at hd
        exact absurd hd (by simp)
      · rw [hs, if_pos rfl] at hd
        have : d = ⟨(firstFreeSlot devs).getD 0, vid, pid⟩ := by
          injection hd with h1
          exact h1.symm
        rw [this, hi]
    · rw [if_neg hi] at hd
      exact h i d hd

lemma fdInv_unique (devs : DevTable) (h : FdInv devs) (i j : Nat) (di dj : Session)
    (hi : devs.getD i none = some di) (hj : devs.getD j none = some dj)
    (hfd : di.fd = dj.fd) : i = j := by
  have h1 := h i di hi
  have h2 := h j dj hj
  omega

end WebUsbDeviceManager

/-- C6: handle assignment in `WebUsbDeviceManager.open`. `firstFreeSlot` is
exactly the first index of the table holding `undefined` (and is `none` only
when every slot within the table's length is occupied); when no already-open
session matches the requested identity and the device is supported, the new
session is stored with the first free slot's index as its handle; when no
slot is free the handle is 0 and slot 0 is replaced in place; the
handle-equals-own-slot invariant is preserved by `open`, and under it handles
are unique among the sessions currently stored. -/
theorem open_handle_assignment :
    (∀ (devs : WebUsbDeviceManager.DevTable) (i : Nat),
      WebUsbDeviceManager.firstFreeSlot devs = some i →
        i < devs.length ∧ devs.getD i none = none ∧
          ∀ j, j < i → devs.getD j none ≠ none) ∧
    (∀ (devs : WebUsbDeviceManager.DevTable),
      WebUsbDeviceManager.firstFreeSlot devs = none →
        ∀ j, j < devs.length → devs.getD j none ≠ none) ∧
    (∀ (supported : Nat → Nat → Bool) (devs : WebUsbDeviceManager.DevTable)
      (vid pid : Nat),
      WebUsbDeviceManager.findOpened devs vid pid = none →
      supported vid pid = true →
      (WebUsbDeviceManager.openDevice supported devs vid pid).2 =
        some ⟨(WebUsbDeviceManager.firstFreeSlot devs).getD 0, vid, pid⟩) ∧
    (∀ (supported : Nat → Nat → Bool) (devs : WebUsbDeviceManager.DevTable)
      (vid pid : Nat),
      WebUsbDeviceManager.findOpened devs vid pid = none →
      supported vid pid = true →
      WebUsbDeviceManager.firstFreeSlot devs = none →
      0 < devs.length →
      (WebUsbDeviceManager.openDevice supported devs vid pid).1 =
        devs.set 0 (some ⟨0, vid, pid⟩) ∧
      (WebUsbDeviceManager.openDevice supported devs vid pid).2 =
        some ⟨0, vid, pid⟩) ∧
    (∀ (supported : Nat → Nat → Bool) (devs : WebUsbDeviceManager.DevTable)
      (vid pid : Nat),
      WebUsbDeviceManager.FdInv devs →
      WebUsbDeviceManager.FdInv (WebUsbDeviceManager.openDevice supported devs vid pid).1) ∧
    (∀ (devs : WebUsbDeviceManager.DevTable),
      WebUsbDeviceManager.FdInv devs →
      ∀ (i j : Nat) (di dj : WebUsbDeviceManager.Session),
        devs.getD i none = some di → devs.getD j none = some dj →
        di.fd = dj.fd → i = j) := by
  refine ⟨WebUsbDeviceManager.ffs_some_spec, WebUsbDeviceManager.ffs_none_spec,
    ?_, ?_, WebUsbDeviceManager.fdInv_openDevice, WebUsbDeviceManager.fdInv_unique⟩
  · intro supported devs vid pid hfind hsupp
    simp [WebUsbDeviceManager.openDevice, hfind, hsupp]
  · intro supported devs vid pid hfind hsupp hffs hlen
    constructor
    · simp only [WebUsbDeviceManager.openDevice, hfind, hffs, hsupp,
        Option.getD_none, if_true]
      rw [WebUsbDeviceManager.jsArraySet]
      rw [show 0 + 1 - devs.length = 0 from by omega]
      simp
    · simp [WebUsbDeviceManager.openDevice, hfind, hsupp, hffs]

theorem open_handle_assignment_witness :
    (1 < ([some ⟨0, 5, 6⟩, none, some ⟨2, 7, 8⟩] :
        WebUsbDeviceManager.DevTable).length ∧
      ([some ⟨0, 5, 6⟩, none, some ⟨2, 7, 8⟩] :
        WebUsbDeviceManager.DevTable).getD 1 none = none ∧
      ∀ j, j < 1 → ([some ⟨0, 5, 6⟩, none, some ⟨2, 7, 8⟩] :
        WebUsbDeviceManager.DevTable).getD j none ≠ none) ∧
    (WebUsbDeviceManager.openDevice (fun _ _ => true)
        [some ⟨0, 5, 6⟩, none, some ⟨2, 7, 8⟩] 1 2).2 = some ⟨1, 1, 2⟩ ∧
    (WebUsbDeviceManager.openDevice (fun _ _ => true) [some ⟨0, 5, 6⟩] 1 2).1 =
      ([some ⟨0, 5, 6⟩] : WebUsbDeviceManager.DevTable).set 0 (some ⟨0, 1, 2⟩) ∧
    WebUsbDeviceManager.FdInv
      (WebUsbDeviceManager.openDevice (fun _ _ => true) [none] 1 2).1 := by
  refine ⟨open_handle_assignment.1 [some ⟨0, 5, 6⟩, none, some ⟨2, 7, 8⟩] 1 (by decide),
    ?_, ?_, ?_⟩
  · have h := open_handle_assignment.2.2.1 (fun _ _ => true)
      [some ⟨0, 5, 6⟩, none, some ⟨2, 7, 8⟩] 1 2 (by decide) rfl
    simpa using h
  · exact (open_handle_assignment.2.2.2.1 (fun _ _ => true) [some ⟨0, 5, 6⟩] 1 2
      (by decide) rfl (by decide) (by decide)).1
  · exact open_handle_assignment.2.2.2.2.1 (fun _ _ => true) [none] 1 2
      (by intro i d hd; rcases i with _ | i <;> simp [List.getD] at hd)

end WebSdr
